import Mathlib

/-!
# Lokal jobs application: normaliser, fetch client, list and bookmark coordinators

A shallow embedding of `src/services/api.js`, `src/screens/JobsScreen.js` and
`src/context/BookmarkContext.js`.

JavaScript values are embedded as the type `JSVal` of parsed JSON values extended
with `undefined` (the value of a missing property).  Conventions of the embedding:

* numbers are the integers (the safe-integer range, where `Number::toString` is the
  decimal numeral); fractional numbers and `NaN` are outside the model;
* strings are Lean strings (sequences of code points; lone surrogates are outside
  the model);
* an object is the list of its own properties, keys unique, as `JSON.parse` builds it;
* `===` on arrays and objects is identity of references in JavaScript; the embedding
  has no references and compares contents.  On `undefined`, `null`, booleans, numbers
  and strings (the values an upstream id takes) the two agree;
* a thrown `TypeError` carries no message (the text is engine specific);
* console output is not modelled.
-/

namespace Lokal

/-! ## JavaScript values -/

/-- A JavaScript value as it reaches the normaliser: a parsed JSON value, or `undefined`. -/
inductive JSVal where
  | undefined : JSVal
  | null : JSVal
  | bool (b : Bool) : JSVal
  | num (n : Int) : JSVal
  | str (s : String) : JSVal
  | arr (items : List JSVal) : JSVal
  | obj (fields : List (String × JSVal)) : JSVal

/-- A value that a `throw` raises (and a rejected promise carries). -/
inductive Thrown where
  /-- A `TypeError` raised by the engine (reading a property of `null`, calling a non-function). -/
  | typeError : Thrown
  /-- The rejection of `axios.get`: a transport failure (no status) or a non-2xx status. -/
  | requestError (message : String) (status : Option Nat) : Thrown
  /-- The value of `new Error(message)`. -/
  | error (message : String) : Thrown
  deriving DecidableEq, Repr

mutual
/-- Strict equality `a === b` (see the conventions above for arrays and objects). -/
def strictEq : JSVal → JSVal → Bool
  | .undefined, .undefined => true
  | .null, .null => true
  | .bool a, .bool b => a == b
  | .num a, .num b => a == b
  | .str a, .str b => a == b
  | .arr a, .arr b => strictEqItems a b
  | .obj a, .obj b => strictEqFields a b
  | _, _ => false
/-- Pointwise `strictEq` on the items of two arrays. -/
def strictEqItems : List JSVal → List JSVal → Bool
  | [], [] => true
  | x :: xs, y :: ys => strictEq x y && strictEqItems xs ys
  | _, _ => false
/-- Pointwise `strictEq` on the properties of two objects. -/
def strictEqFields : List (String × JSVal) → List (String × JSVal) → Bool
  | [], [] => true
  | (k, x) :: xs, (l, y) :: ys => k == l && strictEq x y && strictEqFields xs ys
  | _, _ => false
end

mutual
theorem strictEq_iff : ∀ a b : JSVal, strictEq a b = true ↔ a = b
  | .undefined, b => by cases b <;> simp [strictEq]
  | .null, b => by cases b <;> simp [strictEq]
  | .bool a, b => by cases b <;> simp [strictEq]
  | .num a, b => by cases b <;> simp [strictEq]
  | .str a, b => by cases b <;> simp [strictEq]
  | .arr a, b => by
      cases b <;> simp [strictEq]
      exact strictEqItems_iff a _
  | .obj a, b => by
      cases b <;> simp [strictEq]
      exact strictEqFields_iff a _
theorem strictEqItems_iff : ∀ a b : List JSVal, strictEqItems a b = true ↔ a = b
  | [], b => by cases b <;> simp [strictEqItems]
  | x :: xs, b => by
      cases b with
      | nil => simp [strictEqItems]
      | cons y ys => simp [strictEqItems, strictEq_iff x y, strictEqItems_iff xs ys]
theorem strictEqFields_iff :
    ∀ a b : List (String × JSVal), strictEqFields a b = true ↔ a = b
  | [], b => by cases b <;> simp [strictEqFields]
  | (k, x) :: xs, b => by
      cases b with
      | nil => simp [strictEqFields]
      | cons y ys =>
        obtain ⟨l, y⟩ := y
        simp [strictEqFields, strictEq_iff x y, strictEqFields_iff xs ys, and_assoc]
end

instance : DecidableEq JSVal := fun a b => decidable_of_iff _ (strictEq_iff a b)

instance instDecidableEqExcept {ε α : Type} [DecidableEq ε] [DecidableEq α] :
    DecidableEq (Except ε α)
  | .ok a, .ok b => decidable_of_iff (a = b) (by simp)
  | .error a, .error b => decidable_of_iff (a = b) (by simp)
  | .ok _, .error _ => isFalse (by simp)
  | .error _, .ok _ => isFalse (by simp)

/-- Truthiness, as `||`, `&&` and `if` test it: `undefined`, `null`, `false`, `0` and
the empty string are falsy, every other value (arrays and objects included) is truthy. -/
def truthy : JSVal → Bool
  | .undefined => false
  | .null => false
  | .bool b => b
  | .num n => n != 0
  | .str s => s != ""
  | .arr _ => true
  | .obj _ => true

/-- The value of `a || b` when evaluating `b` cannot throw. -/
def jsOr (a b : JSVal) : JSVal := if truthy a then a else b

/-- A value is defined when it is neither `undefined` nor `null`. -/
def isDefined : JSVal → Bool
  | .undefined => false
  | .null => false
  | _ => true

/-- The optional read `v?.key`, for the data field names the source reads (none of
which is a property of a built-in prototype): an own property of an object, and
`undefined` on every other receiver. -/
def optMember (v : JSVal) (key : String) : JSVal :=
  match v with
  | .obj fields => (fields.lookup key).getD .undefined
  | _ => .undefined

/-- The read `v.key`: a `TypeError` when `v` is `undefined` or `null`, and `v?.key`
otherwise. -/
def member (v : JSVal) (key : String) : Except Thrown JSVal :=
  match v with
  | .undefined => .error .typeError
  | .null => .error .typeError
  | _ => .ok (optMember v key)

mutual
/-- The abstract operation `ToString(v)`, which a template literal and a computed
property key apply.  An array is joined with commas, `undefined` and `null` items
giving the empty string; an object gives `[object Object]` through
`Object.prototype.toString`, unless it has an own property `toString`, which (a JSON
value, never callable) makes `OrdinaryToPrimitive` raise a `TypeError`. -/
def toStr : JSVal → Except Thrown String
  | .undefined => .ok "undefined"
  | .null => .ok "null"
  | .bool b => .ok (if b then "true" else "false")
  | .num n => .ok (toString n)
  | .str s => .ok s
  | .arr items => (joinItems items).map (fun parts => ",".intercalate parts)
  | .obj fields =>
      if fields.any (fun kv => kv.1 == "toString") then .error .typeError
      else .ok "[object Object]"
/-- The strings `Array.prototype.join` puts between the separators. -/
def joinItems : List JSVal → Except Thrown (List String)
  | [] => .ok []
  | .undefined :: rest => (joinItems rest).map (fun r => "" :: r)
  | .null :: rest => (joinItems rest).map (fun r => "" :: r)
  | v :: rest =>
      match toStr v with
      | .error e => .error e
      | .ok s => (joinItems rest).map (fun r => s :: r)
end

/-- Replace the first occurrence of `pat` in a list of characters by `rep`. -/
def replaceFirstChars (pat rep : List Char) : List Char → List Char
  | [] => if pat = [] then rep else []
  | c :: cs =>
      if pat.isPrefixOf (c :: cs) then rep ++ (c :: cs).drop pat.length
      else c :: replaceFirstChars pat rep cs

/-- The call `s.replace(pat, rep)` of `String.prototype.replace` with a string pattern
and a replacement without `$`: only the first occurrence of `pat` is replaced. -/
def jsReplace (s pat rep : String) : String :=
  String.mk (replaceFirstChars pat.data rep.data s.data)

/-- The call `v?.replace(pat, rep)`: `undefined` on `undefined` and `null`, the
replaced string on a string, and a `TypeError` on every other receiver (no number,
boolean, array or JSON object has a callable `replace`). -/
def optReplace (v : JSVal) (pat rep : String) : Except Thrown JSVal :=
  match v with
  | .undefined => .ok .undefined
  | .null => .ok .undefined
  | .str s => .ok (.str (jsReplace s pat rep))
  | _ => .error .typeError

/-- Map a callback that may throw over a list, left to right, stopping at the first throw. -/
def mapThrowing {α β : Type} (f : α → Except Thrown β) : List α → Except Thrown (List β)
  | [] => .ok []
  | x :: xs =>
      match f x with
      | .error e => .error e
      | .ok y =>
        match mapThrowing f xs with
        | .error e => .error e
        | .ok ys => .ok (y :: ys)

/-- Fold a callback that may throw over a list, left to right, stopping at the first throw. -/
def foldThrowing {α β : Type} (f : β → α → Except Thrown β) : β → List α → Except Thrown β
  | acc, [] => .ok acc
  | acc, x :: xs =>
      match f acc x with
      | .error e => .error e
      | .ok acc2 => foldThrowing f acc2 xs

/-- The call `v?.map(f)`: `none` (for `undefined`) on `undefined` and `null`, the mapped
array on an array, and a `TypeError` on every other receiver. -/
def optMap {β : Type} (v : JSVal) (f : JSVal → Except Thrown β) :
    Except Thrown (Option (List β)) :=
  match v with
  | .undefined => .ok none
  | .null => .ok none
  | .arr items => (mapThrowing f items).map some
  | _ => .error .typeError

/-! ## The job record (`src/services/api.js`, lines 11 to 77) -/

/-- An entry of `additionalInfo.tags`. -/
structure Tag where
  value : JSVal
  bgColor : JSVal
  textColor : JSVal
  deriving DecidableEq

/-- A value of the `additionalInfo.contentV3` mapping. -/
structure ContentField where
  name : JSVal
  value : JSVal
  deriving DecidableEq

/-- An entry of `media.images`. -/
structure Image where
  url : JSVal
  thumbnail : JSVal
  deriving DecidableEq

/-- The nested `companyDetails` record. -/
structure CompanyDetails where
  name : JSVal
  contactPreference : JSVal
  whatsappLink : JSVal
  callStartTime : JSVal
  callEndTime : JSVal
  buttonText : JSVal
  deriving DecidableEq

/-- The nested `additionalInfo` record.  `contentV3` lists the own properties of the
object that `reduce` builds, in the order of their creation. -/
structure AdditionalInfo where
  views : JSVal
  shares : JSVal
  fbShares : JSVal
  applications : JSVal
  isPremium : JSVal
  tags : List Tag
  contentV3 : List (String × ContentField)
  deriving DecidableEq

/-- The nested `media` record. -/
structure Media where
  images : List Image
  videos : JSVal
  deriving DecidableEq

/-- The record that the normalising map of `fetchJobs` builds for one raw job. -/
structure Job where
  id : JSVal
  title : JSVal
  company : JSVal
  location : JSVal
  salary : JSVal
  phone : JSVal
  description : JSVal
  requirements : JSVal
  experience : JSVal
  jobType : JSVal
  openings : JSVal
  jobRole : JSVal
  jobCategory : JSVal
  createdOn : JSVal
  updatedOn : JSVal
  expiresOn : JSVal
  fees : JSVal
  companyDetails : CompanyDetails
  additionalInfo : AdditionalInfo
  media : Media
  deriving DecidableEq

/-! ## The normalising map -/

/-- The `salary` expression (lines 19 to 22):
`job.primary_details?.Salary || (template of salary_min and salary_max) || "Not specified"`. -/
def salaryOf (job : JSVal) : Except Thrown JSVal :=
  let structured := optMember (optMember job "primary_details") "Salary"
  if truthy structured then .ok structured
  else
    match toStr (optMember job "salary_min") with
    | .error e => .error e
    | .ok lo =>
      match toStr (optMember job "salary_max") with
      | .error e => .error e
      | .ok hi => .ok (jsOr (.str ("₹" ++ lo ++ " - ₹" ++ hi)) (.str "Not specified"))

/-- The `phone` expression (lines 23 to 26):
`job.whatsapp_no || job.custom_link?.replace("tel:", "") || "Contact Not Available"`. -/
def phoneOf (job : JSVal) : Except Thrown JSVal :=
  let whatsapp := optMember job "whatsapp_no"
  if truthy whatsapp then .ok whatsapp
  else
    match optReplace (optMember job "custom_link") "tel:" "" with
    | .error e => .error e
    | .ok stripped => .ok (jsOr stripped (.str "Contact Not Available"))

/-- The callback of `job.job_tags?.map` (lines 55 to 59). -/
def tagOf (tag : JSVal) : Except Thrown Tag :=
  match member tag "value" with
  | .error e => .error e
  | .ok v => .ok { value := v, bgColor := optMember tag "bg_color",
                   textColor := optMember tag "text_color" }

/-- The callback of `job.creatives?.map` (lines 71 to 74). -/
def imageOf (creative : JSVal) : Except Thrown Image :=
  match member creative "file" with
  | .error e => .error e
  | .ok f => .ok { url := f, thumbnail := optMember creative "thumb_url" }

/-- The assignment `acc[key] = v` on an ordinary object `acc`, for an object `v`: the key
`__proto__` reaches the setter of `Object.prototype` and creates no own property; an
existing own property is overwritten in place; a new one is added last. -/
def setOwn (acc : List (String × ContentField)) (key : String) (v : ContentField) :
    List (String × ContentField) :=
  if key = "__proto__" then acc
  else if acc.any (fun kv => kv.1 == key) then
    acc.map (fun kv => if kv.1 == key then (key, v) else kv)
  else acc ++ [(key, v)]

/-- The callback of `job.contentV3?.V3?.reduce` (lines 61 to 67). -/
def contentStep (acc : List (String × ContentField)) (item : JSVal) :
    Except Thrown (List (String × ContentField)) :=
  match member item "field_key" with
  | .error e => .error e
  | .ok k =>
    match toStr k with
    | .error e => .error e
    | .ok key =>
      .ok (setOwn acc key { name := optMember item "field_name",
                            value := optMember item "field_value" })

/-- The `contentV3` expression (lines 60 to 67): `job.contentV3?.V3?.reduce(..., {}) || {}`. -/
def contentV3Of (job : JSVal) : Except Thrown (List (String × ContentField)) :=
  match optMember (optMember job "contentV3") "V3" with
  | .undefined => .ok []
  | .null => .ok []
  | .arr items => foldThrowing contentStep [] items
  | _ => .error .typeError

/-- The body of the normalising map (lines 11 to 77), applied to one raw job.  The
first read, `job.id`, throws when the raw job is `undefined` or `null`; after it every
read of a property of `job` succeeds. -/
def normalizeJob (job : JSVal) : Except Thrown Job :=
  match member job "id" with
  | .error e => .error e
  | .ok id =>
  match salaryOf job with
  | .error e => .error e
  | .ok salary =>
  match phoneOf job with
  | .error e => .error e
  | .ok phone =>
  match optMap (optMember job "job_tags") tagOf with
  | .error e => .error e
  | .ok tags =>
  match contentV3Of job with
  | .error e => .error e
  | .ok contentV3 =>
  match optMap (optMember job "creatives") imageOf with
  | .error e => .error e
  | .ok images =>
    .ok {
      id := id
      title := jsOr (optMember job "title") (.str "Untitled Position")
      company := jsOr (optMember job "company_name") (.str "Company Not Listed")
      location :=
        jsOr (optMember (optMember job "primary_details") "Place")
          (jsOr (optMember job "job_location_slug") (.str "Location Not Specified"))
      salary := salary
      phone := phone
      description := jsOr (optMember job "other_details") (.str "")
      requirements :=
        jsOr (optMember (optMember job "primary_details") "Qualification")
          (.str "Not specified")
      experience :=
        jsOr (optMember (optMember job "primary_details") "Experience")
          (.str "Not specified")
      jobType :=
        jsOr (optMember (optMember job "primary_details") "Job_Type")
          (jsOr (optMember job "job_hours") (.str "Not specified"))
      openings := jsOr (optMember job "openings_count") (.str "Not specified")
      jobRole := jsOr (optMember job "job_role") (.str "Not specified")
      jobCategory := jsOr (optMember job "job_category") (.str "Not specified")
      createdOn := jsOr (optMember job "created_on") (.str "")
      updatedOn := jsOr (optMember job "updated_on") (.str "")
      expiresOn := jsOr (optMember job "expire_on") (.str "")
      fees :=
        jsOr (optMember job "fees_text")
          (jsOr (optMember (optMember job "primary_details") "Fees_Charged")
            (.str "No fees"))
      companyDetails := {
        name := jsOr (optMember job "company_name") (.str "Not specified")
        contactPreference := jsOr (optMember job "contact_preference") (.obj [])
        whatsappLink :=
          jsOr (optMember (optMember job "contact_preference") "whatsapp_link") (.str "")
        callStartTime :=
          jsOr (optMember (optMember job "contact_preference") "preferred_call_start_time")
            (.str "")
        callEndTime :=
          jsOr (optMember (optMember job "contact_preference") "preferred_call_end_time")
            (.str "")
        buttonText := jsOr (optMember job "button_text") (.str "") }
      additionalInfo := {
        views := jsOr (optMember job "views") (.num 0)
        shares := jsOr (optMember job "shares") (.num 0)
        fbShares := jsOr (optMember job "fb_shares") (.num 0)
        applications := jsOr (optMember job "num_applications") (.num 0)
        isPremium := jsOr (optMember job "is_premium") (.bool false)
        tags := tags.getD []
        contentV3 := contentV3 }
      media := {
        images := images.getD []
        videos := jsOr (optMember job "videos") (.arr []) } }

/-! ## The fetch client (`fetchJobs`) -/

/-- The part of an axios response that `fetchJobs` reads. -/
structure Response where
  data : JSVal

/-- The constant `BASE_URL`. -/
def BASE_URL : String := "https://testapi.getlokalapp.com"

/-- The `try` block of `fetchJobs` (lines 7 to 81).  `get` stands for `axios.get`: it
resolves with a response, or rejects on a transport failure or a non-2xx status. -/
def fetchJobsTry (get : String → Except Thrown Response) (page : Nat) :
    Except Thrown (List Job) :=
  match get (BASE_URL ++ "/common/jobs?page=" ++ toString page) with
  | .error e => .error e
  | .ok response =>
    if truthy response.data && truthy (optMember response.data "results") then
      match optMember response.data "results" with
      | .arr results => mapThrowing normalizeJob results
      | _ => .error .typeError
    else .ok []

/-- The function `fetchJobs(page)`: whatever the `try` block throws, the `catch` block
(lines 82 to 89) logs and replaces by `new Error("Failed to fetch jobs")`. -/
def fetchJobs (get : String → Except Thrown Response) (page : Nat) :
    Except Thrown (List Job) :=
  match fetchJobsTry get page with
  | .ok jobs => .ok jobs
  | .error _ => .error (.error "Failed to fetch jobs")

/-! ## JavaScript `Set` -/

/-- A JavaScript `Set`: its elements in insertion order, none twice. -/
structure JSSet (α : Type) where
  items : List α
  nodup : items.Nodup

namespace JSSet

variable {α : Type} [DecidableEq α]

/-- The value of `new Set()`. -/
def empty : JSSet α := ⟨[], List.nodup_nil⟩

/-- The test `s.has(x)`. -/
def has (s : JSSet α) (x : α) : Bool := decide (x ∈ s.items)

/-- The set after `s.add(x)`: unchanged when `x` is an element, else `x` is added last. -/
def add (s : JSSet α) (x : α) : JSSet α :=
  if h : x ∈ s.items then s
  else ⟨s.items ++ [x], List.Nodup.append s.nodup (List.nodup_singleton x)
    (by simpa [List.disjoint_singleton] using h)⟩

/-- The set after `s.delete(x)`. -/
def delete (s : JSSet α) (x : α) : JSSet α := ⟨s.items.erase x, s.nodup.erase x⟩

/-- The value of `new Set(xs)` for an array `xs`: the elements are added in order. -/
def ofList (xs : List α) : JSSet α := xs.foldl add empty

/-- The set after `s.clear()`. -/
def clear (_s : JSSet α) : JSSet α := empty

end JSSet

/-! ## The job list coordinator (`src/screens/JobsScreen.js`) -/

/-- An element of the `jobs` state: the record `{...job, uniqueId}`. -/
structure ListedJob where
  job : Job
  uniqueId : String
  deriving DecidableEq

/-- A call of `fetchJobs` that `loadJobs` awaits: the arguments of that `loadJobs` call. -/
structure Request where
  pageNumber : Nat
  shouldRefresh : Bool
  deriving DecidableEq

/-- The state of the `JobsScreen` component (lines 26 to 32), together with the
`fetchJobs` calls that have been issued and have not settled yet. -/
structure JobsScreenState where
  jobs : List ListedJob
  page : Nat
  loading : Bool
  refreshing : Bool
  error : Option String
  hasMore : Bool
  processedIds : JSSet String
  inFlight : List Request

/-- The state of the first render: the arguments of the `useState` calls. -/
def initialJobsScreen : JobsScreenState :=
  { jobs := [], page := 1, loading := false, refreshing := false, error := none,
    hasMore := true, processedIds := JSSet.empty, inFlight := [] }

/-- The function `processJobData` (lines 34 to 43).  `generateUniqueId` reads the clock
and a random source; `gen k` stands for the value of its call number `k`, counted from
`k0` on.  Returns the mapped array and `processedIds` after the `add` calls. -/
def processJobData (gen : Nat → String) :
    Nat → JSSet String → List Job → List ListedJob × JSSet String
  | _, processedIds, [] => ([], processedIds)
  | k0, processedIds, job :: rest =>
      let uniqueId := gen k0
      let tail := processJobData gen (k0 + 1) (processedIds.add uniqueId) rest
      ({ job := job, uniqueId := uniqueId } :: tail.1, tail.2)

/-- The part of `loadJobs` before the `await` (lines 45 to 51): the guard, then
`setLoading(true)`, `setError(null)` and the call of `fetchJobs(pageNumber)`, for a call
through the closure of the render that read the state `s`, before any later write: the
guard reads the `loading` and `hasMore` of `s`. -/
def loadJobsCall (s : JobsScreenState) (pageNumber : Nat) (shouldRefresh : Bool) :
    JobsScreenState :=
  if s.loading || (!s.hasMore && !shouldRefresh) then s
  else { s with loading := true, error := none,
                inFlight := s.inFlight ++ [⟨pageNumber, shouldRefresh⟩] }

/-- The updater passed to `setJobs` on a load that is not a refresh (lines 60 to 66). -/
def appendNewJobs (prevJobs processedData : List ListedJob) : List ListedJob :=
  prevJobs ++ processedData.filter (fun newJob =>
    !prevJobs.any (fun existingJob => strictEq existingJob.job.id newJob.job.id))

/-- The message `loadJobs` stores in `error` (lines 75 to 77). -/
def loadErrorMessage : String :=
  "Failed to load jobs. Please check your internet connection and try again."

/-- The part of `loadJobs` after the `await` (lines 53 to 81), for the request `req`
whose `fetchJobs` call settled with `result`. -/
def loadJobsResume (gen : Nat → String) (s : JobsScreenState) (req : Request)
    (result : Except Thrown (List Job)) : JobsScreenState :=
  let s1 : JobsScreenState :=
    match result with
    | .ok data =>
      if data.length > 0 then
        let processed := processJobData gen 0 s.processedIds data
        let s2 : JobsScreenState :=
          if req.shouldRefresh then
            { s with processedIds := processed.2.clear, jobs := processed.1 }
          else
            { s with processedIds := processed.2, jobs := appendNewJobs s.jobs processed.1 }
        { s2 with page := req.pageNumber + 1, hasMore := decide (data.length ≥ 10) }
      else { s with hasMore := false }
    | .error _ => { s with error := some loadErrorMessage }
  { s1 with loading := false, refreshing := false, inFlight := s.inFlight.erase req }

/-- A whole run of `loadJobs(pageNumber, shouldRefresh)` with no other event between
the call and the settling of its `fetchJobs(pageNumber)`. -/
def loadJobs (get : String → Except Thrown Response) (gen : Nat → String)
    (s : JobsScreenState) (pageNumber : Nat) (shouldRefresh : Bool) : JobsScreenState :=
  if s.loading || (!s.hasMore && !shouldRefresh) then s
  else
    loadJobsResume gen (loadJobsCall s pageNumber shouldRefresh) ⟨pageNumber, shouldRefresh⟩
      (fetchJobs get pageNumber)

/-- The part of `handleRefresh` (lines 88 to 93) up to the `await` inside `loadJobs`. -/
def handleRefreshCall (s : JobsScreenState) : JobsScreenState :=
  loadJobsCall { s with refreshing := true, hasMore := true, page := 1 } 1 true

/-- A whole run of `handleRefresh`, its `loadJobs(1, true)` included. -/
def handleRefresh (get : String → Except Thrown Response) (gen : Nat → String)
    (s : JobsScreenState) : JobsScreenState :=
  loadJobs get gen { s with refreshing := true, hasMore := true, page := 1 } 1 true

/-- The part of `loadJobs` before the `await` (lines 45 to 51), for a call through the
closure of any render.  `loading` and `hasMore` are constants of one render (lines 28
and 31): the guard of line 46 reads the values of the state `render` that the render
which made the closure read, while the setters act on the state `s` of the component
at the time of the call. -/
def loadJobsCallFrom (render s : JobsScreenState) (pageNumber : Nat) (shouldRefresh : Bool) :
    JobsScreenState :=
  if render.loading || (!render.hasMore && !shouldRefresh) then s
  else { s with loading := true, error := none,
                inFlight := s.inFlight ++ [⟨pageNumber, shouldRefresh⟩] }

/-- The part of `handleRefresh` (lines 88 to 93) up to the `await` inside `loadJobs`, for
the `handleRefresh` of the render that read `render`; its `loadJobs` is the closure of
that same render. -/
def handleRefreshCallFrom (render s : JobsScreenState) : JobsScreenState :=
  loadJobsCallFrom render { s with refreshing := true, hasMore := true, page := 1 } 1 true

/-- The handler `onEndReached` (line 157) of the render that read `render`:
`hasMore && loadJobs(page)`, up to the `await`. -/
def onEndReachedFrom (render s : JobsScreenState) : JobsScreenState :=
  if render.hasMore then loadJobsCallFrom render s render.page false else s

/-- The screen between two events: the state that the latest render read, whose values
its closures hold, and the state of the component with every setter call applied, which
the next render reads. -/
structure Screen where
  render : JobsScreenState
  state : JobsScreenState

/-- The screen at its first render. -/
def initialScreen : Screen := { render := initialJobsScreen, state := initialJobsScreen }

/-- What can happen to the screen: a call of `loadJobs` through the latest render (the
mount effect calls `loadJobs()`, that is `call 1 false`), `onEndReached`, a refresh
request, the settling of an awaited `fetchJobs`, and a new render. -/
inductive JobsEvent where
  | call (pageNumber : Nat) (shouldRefresh : Bool) : JobsEvent
  | endReached : JobsEvent
  | refresh : JobsEvent
  | settle (req : Request) (result : Except Thrown (List Job)) (gen : Nat → String) : JobsEvent
  | rerender : JobsEvent

/-- One event applied to the screen.  The handlers run through the closures of the
latest render; the continuation of `loadJobs` after its `await` only calls setters; a
new render reads the state of the component. -/
def jobsStep (sc : Screen) : JobsEvent → Screen
  | .call pageNumber shouldRefresh =>
      { sc with state := loadJobsCallFrom sc.render sc.state pageNumber shouldRefresh }
  | .endReached => { sc with state := onEndReachedFrom sc.render sc.state }
  | .refresh => { sc with state := handleRefreshCallFrom sc.render sc.state }
  | .settle req result gen => { sc with state := loadJobsResume gen sc.state req result }
  | .rerender => { sc with render := sc.state }

/-- Only a fetch that is in flight can settle. -/
def jobsEnabled (sc : Screen) : JobsEvent → Prop
  | .settle req _ _ => req ∈ sc.state.inFlight
  | _ => True

/-- The screens reached from the first render. -/
inductive JobsReachable : Screen → Prop where
  | init : JobsReachable initialScreen
  | step (sc : Screen) (e : JobsEvent) :
      JobsReachable sc → jobsEnabled sc e → JobsReachable (jobsStep sc e)

/-- The events applied one after the other. -/
def jobsRun (sc : Screen) (events : List JobsEvent) : Screen :=
  events.foldl jobsStep sc

/-! ## The bookmark coordinator (`src/context/BookmarkContext.js`) -/

/-- The state of `BookmarkProvider` (lines 25 to 27). -/
structure BookmarkState where
  bookmarkedJobs : List Job
  bookmarkedIds : JSSet JSVal
  isLoading : Bool

/-- The state of the first render. -/
def initialBookmarks : BookmarkState :=
  { bookmarkedJobs := [], bookmarkedIds := JSSet.empty, isLoading := true }

/-- The function `toggleJobBookmark(job)` (lines 44 to 63).  `store` stands for the
settled `toggleBookmark(job)` of the storage module: the reported membership, or a
rejection.  Returns the state after the call and what the call returns or throws. -/
def toggleJobBookmark (s : BookmarkState) (job : Job) (store : Except Thrown Bool) :
    BookmarkState × Except Thrown Bool :=
  match store with
  | .ok isBookmarked =>
    if isBookmarked then
      ({ s with bookmarkedJobs := s.bookmarkedJobs ++ [job],
                bookmarkedIds := JSSet.ofList (s.bookmarkedIds.items ++ [job.id]) },
       .ok isBookmarked)
    else
      ({ s with bookmarkedJobs := s.bookmarkedJobs.filter (fun j => !strictEq j.id job.id),
                bookmarkedIds := (JSSet.ofList s.bookmarkedIds.items).delete job.id },
       .ok isBookmarked)
  | .error e => (s, .error e)

/-- The part of `loadBookmarkedJobs` before the `await` (lines 30 to 32):
`setIsLoading(true)` and the call of `getBookmarkedJobs()`. -/
def loadBookmarkedJobsCall (s : BookmarkState) : BookmarkState :=
  { s with isLoading := true }

/-- The part of `loadBookmarkedJobs` after the `await` (lines 32 to 41).  `store` stands
for the settled `getBookmarkedJobs()` of the storage module: the persisted jobs, or a
rejection, which the `catch` block logs and throws again.  Returns the state after the
call and what the call returns or throws. -/
def loadBookmarkedJobsResume (s : BookmarkState) (store : Except Thrown (List Job)) :
    BookmarkState × Except Thrown (List Job) :=
  match store with
  | .ok jobs =>
    ({ s with bookmarkedJobs := jobs,
              bookmarkedIds := JSSet.ofList (jobs.map (fun job => job.id)),
              isLoading := false },
     .ok jobs)
  | .error e => ({ s with isLoading := false }, .error e)

/-- A whole run of `loadBookmarkedJobs()` (lines 29 to 42). -/
def loadBookmarkedJobs (s : BookmarkState) (store : Except Thrown (List Job)) :
    BookmarkState × Except Thrown (List Job) :=
  loadBookmarkedJobsResume (loadBookmarkedJobsCall s) store

/-- What can happen to the bookmark coordinator: a call of `loadBookmarkedJobs`, the
settling of its `getBookmarkedJobs()`, and a `toggleJobBookmark(job)` whose
`toggleBookmark(job)` settles (before its `await` settles the call changes nothing). -/
inductive BookmarkEvent where
  | loadCall : BookmarkEvent
  | loadSettle (store : Except Thrown (List Job)) : BookmarkEvent
  | toggle (job : Job) (store : Except Thrown Bool) : BookmarkEvent

/-- One event applied to the state. -/
def bookmarkStep (s : BookmarkState) : BookmarkEvent → BookmarkState
  | .loadCall => loadBookmarkedJobsCall s
  | .loadSettle store => (loadBookmarkedJobsResume s store).1
  | .toggle job store => (toggleJobBookmark s job store).1

/-- The states the coordinator reaches from its first render. -/
inductive BookmarkReachable : BookmarkState → Prop where
  | init : BookmarkReachable initialBookmarks
  | step (s : BookmarkState) (e : BookmarkEvent) :
      BookmarkReachable s → BookmarkReachable (bookmarkStep s e)

/-- The ids in `bookmarkedIds` are exactly the ids of the jobs in `bookmarkedJobs`:
`bookmarkedIds.has(x)` holds exactly when some bookmarked job has the id `x`. -/
def idsMatchJobs (s : BookmarkState) : Prop :=
  ∀ x : JSVal, s.bookmarkedIds.has x = s.bookmarkedJobs.any (fun j => strictEq j.id x)

/-! ## Predicates of the statements -/

/-- Whether a computation that may throw returned. -/
def succeeds {α : Type} : Except Thrown α → Bool
  | .ok _ => true
  | .error _ => false

/-- Every field that has a default in the normalising map: all fields of the record
but `id`, and but the fields of the entries of `tags`, `contentV3` and `images`. -/
def coreFieldsDefined (j : Job) : Bool :=
  isDefined j.title && isDefined j.company && isDefined j.location && isDefined j.salary &&
  isDefined j.phone && isDefined j.description && isDefined j.requirements &&
  isDefined j.experience && isDefined j.jobType && isDefined j.openings &&
  isDefined j.jobRole && isDefined j.jobCategory && isDefined j.createdOn &&
  isDefined j.updatedOn && isDefined j.expiresOn && isDefined j.fees &&
  isDefined j.companyDetails.name && isDefined j.companyDetails.contactPreference &&
  isDefined j.companyDetails.whatsappLink && isDefined j.companyDetails.callStartTime &&
  isDefined j.companyDetails.callEndTime && isDefined j.companyDetails.buttonText &&
  isDefined j.additionalInfo.views && isDefined j.additionalInfo.shares &&
  isDefined j.additionalInfo.fbShares && isDefined j.additionalInfo.applications &&
  isDefined j.additionalInfo.isPremium && isDefined j.media.videos

/-- Every field of the record, `id` and the fields of each tag, content and image entry
included. -/
def allFieldsDefined (j : Job) : Bool :=
  coreFieldsDefined j && isDefined j.id &&
  j.additionalInfo.tags.all (fun t =>
    isDefined t.value && isDefined t.bgColor && isDefined t.textColor) &&
  j.additionalInfo.contentV3.all (fun kv => isDefined kv.2.name && isDefined kv.2.value) &&
  j.media.images.all (fun i => isDefined i.url && isDefined i.thumbnail)

mutual
/-- The values `ToString` converts without raising: all but an object with an own
property `toString`, and an array with such an item at any depth. -/
def stringifiable : JSVal → Bool
  | .arr items => stringifiableItems items
  | .obj fields => !fields.any (fun kv => kv.1 == "toString")
  | _ => true
/-- All items of an array are `stringifiable`. -/
def stringifiableItems : List JSVal → Bool
  | [] => true
  | v :: rest => stringifiable v && stringifiableItems rest
end

/-- A value that is missing, `null` or a string. -/
def stringOrAbsent : JSVal → Bool
  | .undefined => true
  | .null => true
  | .str _ => true
  | _ => false

/-- A value that is missing, `null`, or an array all of whose entries pass `entryOk`. -/
def entriesOrAbsent (entryOk : JSVal → Bool) : JSVal → Bool
  | .undefined => true
  | .null => true
  | .arr items => items.all entryOk
  | _ => false

/-- The raw jobs of the shape the normalising map handles: a value that is not `null`
or `undefined`, in which `primary_details.Salary` is truthy or `salary_min` and
`salary_max` convert to a string; `whatsapp_no` is truthy or `custom_link` is missing,
`null` or a string; `job_tags` and `creatives` are missing, `null` or an array without
`null` entries; `contentV3.V3` is missing, `null` or an array of entries that are not
`null` and whose `field_key` converts to a string. -/
def conforming (job : JSVal) : Bool :=
  isDefined job &&
  (truthy (optMember (optMember job "primary_details") "Salary") ||
    (stringifiable (optMember job "salary_min") &&
      stringifiable (optMember job "salary_max"))) &&
  (truthy (optMember job "whatsapp_no") || stringOrAbsent (optMember job "custom_link")) &&
  entriesOrAbsent isDefined (optMember job "job_tags") &&
  entriesOrAbsent (fun item => isDefined item && stringifiable (optMember item "field_key"))
    (optMember (optMember job "contentV3") "V3") &&
  entriesOrAbsent isDefined (optMember job "creatives")

/-- The removal as C4 words it: a leading `tel:` is removed, and a string that does not
start with `tel:` is left unchanged. -/
def stripLeadingTel (s : String) : String :=
  if "tel:".data.isPrefixOf s.data then String.mk (s.data.drop 4) else s

/-- The phone as C4 words it. -/
def phoneAsClaimed (job : JSVal) : JSVal :=
  if truthy (optMember job "whatsapp_no") then optMember job "whatsapp_no"
  else
    match optMember job "custom_link" with
    | .str s =>
      if stripLeadingTel s = "" then .str "Contact Not Available"
      else .str (stripLeadingTel s)
    | _ => .str "Contact Not Available"

/-! ## Sample inputs -/

/-- The raw job that has an `id` and no other field. -/
def rawJob (id : Int) : JSVal := .obj [("id", .num id)]

/-- The record the normalising map builds for `rawJob id`. -/
def bareJob (id : Int) : Job :=
  { id := .num id
    title := .str "Untitled Position"
    company := .str "Company Not Listed"
    location := .str "Location Not Specified"
    salary := .str "₹undefined - ₹undefined"
    phone := .str "Contact Not Available"
    description := .str ""
    requirements := .str "Not specified"
    experience := .str "Not specified"
    jobType := .str "Not specified"
    openings := .str "Not specified"
    jobRole := .str "Not specified"
    jobCategory := .str "Not specified"
    createdOn := .str ""
    updatedOn := .str ""
    expiresOn := .str ""
    fees := .str "No fees"
    companyDetails :=
      { name := .str "Not specified", contactPreference := .obj [], whatsappLink := .str "",
        callStartTime := .str "", callEndTime := .str "", buttonText := .str "" }
    additionalInfo :=
      { views := .num 0, shares := .num 0, fbShares := .num 0, applications := .num 0,
        isPremium := .bool false, tags := [], contentV3 := [] }
    media := { images := [], videos := .arr [] } }

/-- A network that answers every request with a page whose `results` are `results`. -/
def serve (results : List JSVal) : String → Except Thrown Response :=
  fun _ => .ok ⟨.obj [("results", .arr results)]⟩

/-- A network on which every request fails with `cause`. -/
def failWith (cause : Thrown) : String → Except Thrown Response :=
  fun _ => .error cause

/-- A source of unique ids. -/
def sampleIds (k : Nat) : String := "uid" ++ toString k

/-- The records of a page of ten jobs, ids 1 to 10. -/
def tenJobs : List Job := (List.range 10).map (fun n => bareJob (n + 1))

/-- The events that lead to a render with `loading` false, `hasMore` true and `page` 2:
the `loadJobs()` of the mount effect, a render, the settling of its fetch with ten
jobs, and a render. -/
def firstPageLoaded : List JobsEvent :=
  [.call 1 false, .rerender, .settle ⟨1, false⟩ (.ok tenJobs) sampleIds, .rerender]

/-! ## Lemmas on JavaScript values -/

theorem truthy_isDefined {v : JSVal} (h : truthy v = true) : isDefined v = true := by
  cases v <;> simp_all [truthy, isDefined]

@[simp] theorem isDefined_str (s : String) : isDefined (.str s) = true := rfl
@[simp] theorem isDefined_num (n : Int) : isDefined (.num n) = true := rfl
@[simp] theorem isDefined_bool (b : Bool) : isDefined (.bool b) = true := rfl
@[simp] theorem isDefined_arr (l : List JSVal) : isDefined (.arr l) = true := rfl
@[simp] theorem isDefined_obj (l : List (String × JSVal)) : isDefined (.obj l) = true := rfl

@[simp] theorem isDefined_jsOr (a b : JSVal) (hb : isDefined b = true) :
    isDefined (jsOr a b) = true := by
  unfold jsOr
  split
  · exact truthy_isDefined (by assumption)
  · exact hb

@[simp] theorem succeeds_ok {α : Type} (a : α) : succeeds (Except.ok a : Except Thrown α) = true := rfl
@[simp] theorem succeeds_error {α : Type} (e : Thrown) :
    succeeds (Except.error e : Except Thrown α) = false := rfl

theorem succeeds_iff {α : Type} (x : Except Thrown α) : succeeds x = true ↔ ∃ a, x = .ok a := by
  cases x <;> simp

theorem succeeds_map {α β : Type} (f : α → β) (x : Except Thrown α) :
    succeeds (x.map f) = succeeds x := by
  cases x <;> rfl

theorem error_map {α β : Type} {f : α → β} {x : Except Thrown α} {e : Thrown}
    (h : x.map f = .error e) : x = .error e := by
  cases x
  · simpa [Except.map] using h
  · simp [Except.map] at h

theorem member_succeeds (v : JSVal) (k : String) : succeeds (member v k) = isDefined v := by
  cases v <;> rfl

theorem member_error {v : JSVal} {k : String} {e : Thrown} (h : member v k = .error e) :
    e = .typeError := by
  cases v <;> simp [member] at h <;> exact h.symm

mutual
theorem toStr_succeeds : ∀ v : JSVal, succeeds (toStr v) = stringifiable v
  | .undefined => rfl
  | .null => rfl
  | .bool _ => rfl
  | .num _ => rfl
  | .str _ => rfl
  | .arr items => by
      simp only [toStr, stringifiable, succeeds_map]
      exact joinItems_succeeds items
  | .obj fields => by
      simp only [toStr, stringifiable]
      cases hb : fields.any (fun kv => kv.1 == "toString") <;> simp
theorem joinItems_succeeds : ∀ items : List JSVal,
    succeeds (joinItems items) = stringifiableItems items
  | [] => rfl
  | .undefined :: rest => by
      simp only [joinItems, stringifiableItems, succeeds_map, stringifiable, Bool.true_and]
      exact joinItems_succeeds rest
  | .null :: rest => by
      simp only [joinItems, stringifiableItems, succeeds_map, stringifiable, Bool.true_and]
      exact joinItems_succeeds rest
  | .bool b :: rest => by
      simp only [joinItems, toStr, stringifiableItems, succeeds_map, stringifiable, Bool.true_and]
      exact joinItems_succeeds rest
  | .num b :: rest => by
      simp only [joinItems, toStr, stringifiableItems, succeeds_map, stringifiable, Bool.true_and]
      exact joinItems_succeeds rest
  | .str b :: rest => by
      simp only [joinItems, toStr, stringifiableItems, succeeds_map, stringifiable, Bool.true_and]
      exact joinItems_succeeds rest
  | .arr b :: rest => by
      have h1 := toStr_succeeds (.arr b)
      have h2 := joinItems_succeeds rest
      simp only [joinItems, stringifiableItems]
      cases h : toStr (.arr b) with
      | error e => rw [h] at h1; simp at h1; simp [← h1]
      | ok s => rw [h] at h1; simp at h1; simp [← h1, succeeds_map, h2]
  | .obj b :: rest => by
      have h1 := toStr_succeeds (.obj b)
      have h2 := joinItems_succeeds rest
      simp only [joinItems, stringifiableItems]
      cases h : toStr (.obj b) with
      | error e => rw [h] at h1; simp at h1; simp [← h1]
      | ok s => rw [h] at h1; simp at h1; simp [← h1, succeeds_map, h2]
end

mutual
theorem toStr_error : ∀ (v : JSVal) (e : Thrown), toStr v = .error e → e = .typeError
  | .undefined, e, h => by simp [toStr] at h
  | .null, e, h => by simp [toStr] at h
  | .bool _, e, h => by simp [toStr] at h
  | .num _, e, h => by simp [toStr] at h
  | .str _, e, h => by simp [toStr] at h
  | .arr items, e, h => by
      simp only [toStr] at h
      exact joinItems_error items e (error_map h)
  | .obj fields, e, h => by
      simp only [toStr] at h
      split at h
      · cases h; rfl
      · cases h
theorem joinItems_error : ∀ (items : List JSVal) (e : Thrown),
    joinItems items = .error e → e = .typeError
  | [], e, h => by simp [joinItems] at h
  | .undefined :: rest, e, h => by
      simp only [joinItems] at h
      exact joinItems_error rest e (error_map h)
  | .null :: rest, e, h => by
      simp only [joinItems] at h
      exact joinItems_error rest e (error_map h)
  | .bool b :: rest, e, h => by
      simp only [joinItems, toStr] at h
      exact joinItems_error rest e (error_map h)
  | .num b :: rest, e, h => by
      simp only [joinItems, toStr] at h
      exact joinItems_error rest e (error_map h)
  | .str b :: rest, e, h => by
      simp only [joinItems, toStr] at h
      exact joinItems_error rest e (error_map h)
  | .arr b :: rest, e, h => by
      simp only [joinItems] at h
      split at h
      · rename_i e2 h2
        cases h
        exact toStr_error (.arr b) _ h2
      · exact joinItems_error rest e (error_map h)
  | .obj b :: rest, e, h => by
      simp only [joinItems] at h
      split at h
      · rename_i e2 h2
        cases h
        exact toStr_error (.obj b) _ h2
      · exact joinItems_error rest e (error_map h)
end

theorem mapThrowing_succeeds {α β : Type} (f : α → Except Thrown β) :
    ∀ l : List α, succeeds (mapThrowing f l) = l.all (fun x => succeeds (f x))
  | [] => rfl
  | x :: xs => by
      have ih := mapThrowing_succeeds f xs
      simp only [mapThrowing, List.all_cons]
      cases hx : f x with
      | error e => simp
      | ok y =>
        cases hxs : mapThrowing f xs with
        | error e => rw [hxs] at ih; simp [← ih]
        | ok ys => rw [hxs] at ih; simp [← ih]

theorem mapThrowing_error {α β : Type} (f : α → Except Thrown β)
    (hf : ∀ x e, f x = .error e → e = .typeError) :
    ∀ (l : List α) (e : Thrown), mapThrowing f l = .error e → e = .typeError
  | [], e, h => by simp [mapThrowing] at h
  | x :: xs, e, h => by
      simp only [mapThrowing] at h
      split at h
      · rename_i e2 h2
        cases h
        exact hf x _ h2
      · split at h
        · rename_i e2 h2
          cases h
          exact mapThrowing_error f hf xs _ h2
        · cases h

theorem mapThrowing_length {α β : Type} (f : α → Except Thrown β) :
    ∀ (l : List α) (out : List β), mapThrowing f l = .ok out → out.length = l.length
  | [], out, h => by
      simp only [mapThrowing] at h
      cases h
      rfl
  | x :: xs, out, h => by
      simp only [mapThrowing] at h
      split at h
      · cases h
      · split at h
        · cases h
        · rename_i ys hys
          cases h
          simp [mapThrowing_length f xs ys hys]

theorem foldThrowing_succeeds {α β : Type} (f : β → α → Except Thrown β) (p : α → Bool)
    (hf : ∀ acc x, succeeds (f acc x) = p x) :
    ∀ (l : List α) (acc : β), succeeds (foldThrowing f acc l) = l.all p
  | [], acc => rfl
  | x :: xs, acc => by
      have hx := hf acc x
      simp only [foldThrowing, List.all_cons]
      cases h : f acc x with
      | error e => rw [h] at hx; simp [← hx]
      | ok acc2 =>
        rw [h] at hx
        simp only [← hx, succeeds_ok, Bool.true_and]
        exact foldThrowing_succeeds f p hf xs acc2

theorem foldThrowing_error {α β : Type} (f : β → α → Except Thrown β)
    (hf : ∀ acc x e, f acc x = .error e → e = .typeError) :
    ∀ (l : List α) (acc : β) (e : Thrown), foldThrowing f acc l = .error e → e = .typeError
  | [], acc, e, h => by simp [foldThrowing] at h
  | x :: xs, acc, e, h => by
      simp only [foldThrowing] at h
      split at h
      · rename_i e2 h2
        cases h
        exact hf acc x _ h2
      · exact foldThrowing_error f hf xs _ e h

/-! ## Lemmas on the normalising map -/

theorem salaryOf_succeeds (job : JSVal) :
    succeeds (salaryOf job) =
      (truthy (optMember (optMember job "primary_details") "Salary") ||
        (stringifiable (optMember job "salary_min") &&
          stringifiable (optMember job "salary_max"))) := by
  unfold salaryOf
  simp only [← toStr_succeeds]
  cases truthy (optMember (optMember job "primary_details") "Salary")
  · cases toStr (optMember job "salary_min") <;> cases toStr (optMember job "salary_max") <;>
      simp
  · simp

theorem salaryOf_error {job : JSVal} {e : Thrown} (h : salaryOf job = .error e) :
    e = .typeError := by
  unfold salaryOf at h
  simp only at h
  split at h
  · cases h
  · split at h
    · rename_i e2 h2
      cases h
      exact toStr_error _ _ h2
    · split at h
      · rename_i e2 h2
        cases h
        exact toStr_error _ _ h2
      · cases h

theorem optReplace_succeeds (v : JSVal) (pat rep : String) :
    succeeds (optReplace v pat rep) = stringOrAbsent v := by
  cases v <;> rfl

theorem optReplace_error {v : JSVal} {pat rep : String} {e : Thrown}
    (h : optReplace v pat rep = .error e) : e = .typeError := by
  cases v <;> simp [optReplace] at h <;> exact h.symm

theorem phoneOf_succeeds (job : JSVal) :
    succeeds (phoneOf job) =
      (truthy (optMember job "whatsapp_no") || stringOrAbsent (optMember job "custom_link")) := by
  unfold phoneOf
  simp only [← optReplace_succeeds (optMember job "custom_link") "tel:" ""]
  cases truthy (optMember job "whatsapp_no")
  · cases optReplace (optMember job "custom_link") "tel:" "" <;> simp
  · simp

theorem phoneOf_error {job : JSVal} {e : Thrown} (h : phoneOf job = .error e) :
    e = .typeError := by
  unfold phoneOf at h
  simp only at h
  split at h
  · cases h
  · split at h
    · rename_i e2 h2
      cases h
      exact optReplace_error h2
    · cases h

theorem tagOf_succeeds (tag : JSVal) : succeeds (tagOf tag) = isDefined tag := by
  cases tag <;> rfl

theorem tagOf_error (tag : JSVal) (e : Thrown) (h : tagOf tag = .error e) :
    e = .typeError := by
  cases tag <;> simp [tagOf, member] at h <;> exact h.symm

theorem imageOf_succeeds (creative : JSVal) : succeeds (imageOf creative) = isDefined creative := by
  cases creative <;> rfl

theorem imageOf_error (creative : JSVal) (e : Thrown) (h : imageOf creative = .error e) :
    e = .typeError := by
  cases creative <;> simp [imageOf, member] at h <;> exact h.symm

theorem optMap_succeeds {β : Type} (v : JSVal) (f : JSVal → Except Thrown β) :
    succeeds (optMap v f) = entriesOrAbsent (fun x => succeeds (f x)) v := by
  cases v <;> simp [optMap, entriesOrAbsent, succeeds_map, mapThrowing_succeeds]

theorem optMap_error {β : Type} {v : JSVal} {f : JSVal → Except Thrown β} {e : Thrown}
    (hf : ∀ x e, f x = .error e → e = .typeError) (h : optMap v f = .error e) :
    e = .typeError := by
  cases v <;> simp only [optMap] at h
  any_goals (cases h; rfl)
  any_goals cases h
  exact mapThrowing_error f hf _ _ (error_map h)

theorem contentStep_succeeds (acc : List (String × ContentField)) (item : JSVal) :
    succeeds (contentStep acc item) =
      (isDefined item && stringifiable (optMember item "field_key")) := by
  unfold contentStep
  rw [← toStr_succeeds]
  cases item <;> simp only [member, isDefined, Bool.false_and, Bool.true_and, succeeds_error] <;>
    split <;> simp_all

theorem contentStep_error (acc : List (String × ContentField)) (item : JSVal) (e : Thrown)
    (h : contentStep acc item = .error e) : e = .typeError := by
  unfold contentStep at h
  split at h
  · rename_i e2 h2
    cases h
    exact member_error h2
  · split at h
    · rename_i e2 h2
      cases h
      exact toStr_error _ _ h2
    · cases h

theorem contentV3Of_succeeds (job : JSVal) :
    succeeds (contentV3Of job) =
      entriesOrAbsent (fun item => isDefined item && stringifiable (optMember item "field_key"))
        (optMember (optMember job "contentV3") "V3") := by
  unfold contentV3Of
  cases optMember (optMember job "contentV3") "V3" <;> simp only [entriesOrAbsent, succeeds_ok,
    succeeds_error]
  exact foldThrowing_succeeds contentStep _ contentStep_succeeds _ _

theorem contentV3Of_error {job : JSVal} {e : Thrown} (h : contentV3Of job = .error e) :
    e = .typeError := by
  unfold contentV3Of at h
  split at h
  · cases h
  · cases h
  · exact foldThrowing_error contentStep contentStep_error _ _ _ h
  · cases h; rfl

theorem normalizeJob_succeeds (job : JSVal) : succeeds (normalizeJob job) = conforming job := by
  unfold conforming
  rw [← member_succeeds job "id", ← salaryOf_succeeds, ← phoneOf_succeeds,
    ← contentV3Of_succeeds]
  have ht : entriesOrAbsent isDefined (optMember job "job_tags") =
      succeeds (optMap (optMember job "job_tags") tagOf) := by
    rw [optMap_succeeds]; congr; funext x; exact (tagOf_succeeds x).symm
  have hi : entriesOrAbsent isDefined (optMember job "creatives") =
      succeeds (optMap (optMember job "creatives") imageOf) := by
    rw [optMap_succeeds]; congr; funext x; exact (imageOf_succeeds x).symm
  rw [ht, hi]
  unfold normalizeJob
  cases member job "id" <;> simp only [succeeds_ok, succeeds_error, Bool.false_and, Bool.true_and]
  cases salaryOf job <;> simp only [succeeds_ok, succeeds_error, Bool.false_and, Bool.true_and]
  cases phoneOf job <;> simp only [succeeds_ok, succeeds_error, Bool.false_and, Bool.true_and]
  cases optMap (optMember job "job_tags") tagOf <;>
    simp only [succeeds_ok, succeeds_error, Bool.false_and, Bool.true_and]
  cases contentV3Of job <;> simp only [succeeds_ok, succeeds_error, Bool.false_and, Bool.true_and]
  cases optMap (optMember job "creatives") imageOf <;>
    simp only [succeeds_ok, succeeds_error, Bool.false_and, Bool.true_and]

theorem normalizeJob_error {job : JSVal} {e : Thrown} (h : normalizeJob job = .error e) :
    e = .typeError := by
  unfold normalizeJob at h
  split at h
  · rename_i e2 h2; cases h; exact member_error h2
  · split at h
    · rename_i e2 h2; cases h; exact salaryOf_error h2
    · split at h
      · rename_i e2 h2; cases h; exact phoneOf_error h2
      · split at h
        · rename_i e2 h2; cases h; exact optMap_error tagOf_error h2
        · split at h
          · rename_i e2 h2; cases h; exact contentV3Of_error h2
          · split at h
            · rename_i e2 h2; cases h; exact optMap_error imageOf_error h2
            · cases h

theorem salaryOf_defined {job v : JSVal} (h : salaryOf job = .ok v) : isDefined v = true := by
  unfold salaryOf at h
  simp only at h
  split at h
  · cases h; exact truthy_isDefined (by assumption)
  · split at h
    · cases h
    · split at h
      · cases h
      · cases h; exact isDefined_jsOr _ _ rfl

theorem phoneOf_defined {job v : JSVal} (h : phoneOf job = .ok v) : isDefined v = true := by
  unfold phoneOf at h
  simp only at h
  split at h
  · cases h; exact truthy_isDefined (by assumption)
  · split at h
    · cases h
    · cases h; exact isDefined_jsOr _ _ rfl

theorem normalizeJob_ok_elim {job : JSVal} {j : Job} (h : normalizeJob job = .ok j) :
    member job "id" = .ok j.id ∧ salaryOf job = .ok j.salary ∧ phoneOf job = .ok j.phone ∧
    coreFieldsDefined j = true := by
  unfold normalizeJob at h
  split at h
  · cases h
  · split at h
    · cases h
    · split at h
      · cases h
      · split at h
        · cases h
        · split at h
          · cases h
          · split at h
            · cases h
            · cases h
              rename_i hid _ _ hs _ _ hp _ _ _ _ _ _ _ _ _
              refine ⟨hid, hs, hp, ?_⟩
              simp [coreFieldsDefined, salaryOf_defined hs, phoneOf_defined hp]

theorem fetchJobs_error_message (get : String → Except Thrown Response) (page : Nat)
    (e : Thrown) (h : fetchJobs get page = .error e) : e = .error "Failed to fetch jobs" := by
  unfold fetchJobs at h
  split at h
  · cases h
  · cases h; rfl

theorem fetchJobs_of_try_error (get : String → Except Thrown Response) (page : Nat)
    (e : Thrown) (h : fetchJobsTry get page = .error e) :
    fetchJobs get page = .error (.error "Failed to fetch jobs") := by
  unfold fetchJobs
  rw [h]

theorem mapThrowing_fails {α β : Type} (f : α → Except Thrown β) (l : List α) (x : α)
    (hx : x ∈ l) (hf : succeeds (f x) = false) : succeeds (mapThrowing f l) = false := by
  rw [mapThrowing_succeeds]
  apply Bool.eq_false_iff.mpr
  intro hall
  rw [List.all_eq_true] at hall
  simp [hall x hx] at hf

/-! ## C1: which fields of the record are defined -/

/-- C1, as stated, fails: for the raw job with only a `title`, the normalising map
returns a record, and its `id` is `undefined`, so not every field is defined. -/
theorem normalizeJob_id_undefined :
    (normalizeJob (.obj [("title", .str "Cook")])).map (fun j => j.id) = .ok .undefined ∧
    (normalizeJob (.obj [("title", .str "Cook")])).map allFieldsDefined = .ok false := by
  decide

/-- C1, amended: for every raw job of the shape the normalising map handles (any
subset of its fields missing or `null`), the map returns a record in which every field
that has a default is defined (all fields but `id` and the fields of the tag, content
and image entries), and `id` is `job.id` as it is. -/
theorem normalizeJob_core_fields_defined (job : JSVal) (h : conforming job = true) :
    ∃ j, normalizeJob job = .ok j ∧ coreFieldsDefined j = true ∧
      j.id = optMember job "id" := by
  rw [← normalizeJob_succeeds, succeeds_iff] at h
  obtain ⟨j, hj⟩ := h
  obtain ⟨hid, _, _, hcore⟩ := normalizeJob_ok_elim hj
  refine ⟨j, hj, hcore, ?_⟩
  cases job <;> simp [member] at hid <;> exact hid.symm

/-- The amended C1 at the raw job with only a `title`. -/
theorem normalizeJob_core_fields_defined_witness :
    conforming (.obj [("title", .str "Cook")]) = true ∧
    ∃ j, normalizeJob (.obj [("title", .str "Cook")]) = .ok j ∧
      coreFieldsDefined j = true ∧ j.id = optMember (.obj [("title", .str "Cook")]) "id" :=
  ⟨by decide, normalizeJob_core_fields_defined (.obj [("title", .str "Cook")]) (by decide)⟩

/-! ## C2: on which raw jobs the normalising map returns -/

/-- C2, as stated, fails: a raw job whose `custom_link` is the number 5, and a raw job
whose `job_tags` is a string, make the normalising map raise a `TypeError`, and a page
that holds the first makes `fetchJobs` fail with "Failed to fetch jobs". -/
theorem normalizeJob_raises_on_untyped_field :
    normalizeJob (.obj [("id", .num 1), ("custom_link", .num 5)]) = .error .typeError ∧
    normalizeJob (.obj [("id", .num 1), ("job_tags", .str "urgent")]) = .error .typeError ∧
    fetchJobs
      (fun _ => .ok ⟨.obj [("results", .arr [.obj [("id", .num 1), ("custom_link", .num 5)]])]⟩)
      1 = .error (.error "Failed to fetch jobs") := by
  decide

/-- C2, amended: the normalising map returns a record on exactly the raw jobs that are
`conforming`; on every other value it raises a `TypeError`, and a page whose `results`
array holds such a value makes `fetchJobs` fail with "Failed to fetch jobs". -/
theorem normalizeJob_returns_iff_conforming :
    (∀ job, conforming job = true → ∃ j, normalizeJob job = .ok j) ∧
    (∀ job, conforming job = false → normalizeJob job = .error .typeError) ∧
    (∀ (get : String → Except Thrown Response) (page : Nat) (data : JSVal)
        (results : List JSVal) (job : JSVal),
      get (BASE_URL ++ "/common/jobs?page=" ++ toString page) = .ok ⟨data⟩ →
      optMember data "results" = .arr results →
      job ∈ results → conforming job = false →
      fetchJobs get page = .error (.error "Failed to fetch jobs")) := by
  refine ⟨?_, ?_, ?_⟩
  · intro job h
    rw [← normalizeJob_succeeds, succeeds_iff] at h
    exact h
  · intro job h
    rw [← normalizeJob_succeeds] at h
    cases hn : normalizeJob job with
    | ok j => rw [hn] at h; simp at h
    | error e => rw [normalizeJob_error hn]
  · intro get page data results job hget hres hmem hbad
    rw [← normalizeJob_succeeds] at hbad
    have hfail := mapThrowing_fails normalizeJob results job hmem hbad
    cases hm : mapThrowing normalizeJob results with
    | ok out => rw [hm] at hfail; simp at hfail
    | error e =>
      apply fetchJobs_of_try_error get page e
      unfold fetchJobsTry
      rw [hget]
      have hd : truthy data = true := by
        cases data <;> first | rfl | simp [optMember] at hres
      have ha : truthy (.arr results) = true := rfl
      simp [hres, hd, ha, hm]

/-- The amended C2 at concrete inputs: the raw job with only an `id` is conforming and
is normalised; the raw job with a numeric `custom_link` is not, and raises, alone and
inside a page. -/
theorem normalizeJob_returns_iff_conforming_witness :
    (∃ j, normalizeJob (.obj [("id", .num 1)]) = .ok j) ∧
    normalizeJob (.obj [("id", .num 1), ("custom_link", .num 5)]) = .error .typeError ∧
    fetchJobs
      (fun _ => .ok ⟨.obj [("results", .arr [.obj [("id", .num 1), ("custom_link", .num 5)]])]⟩)
      1 = .error (.error "Failed to fetch jobs") :=
  ⟨normalizeJob_returns_iff_conforming.1 (.obj [("id", .num 1)]) (by decide),
   normalizeJob_returns_iff_conforming.2.1 (.obj [("id", .num 1), ("custom_link", .num 5)])
     (by decide),
   normalizeJob_returns_iff_conforming.2.2
     (fun _ => .ok ⟨.obj [("results", .arr [.obj [("id", .num 1), ("custom_link", .num 5)]])]⟩)
     1 (.obj [("results", .arr [.obj [("id", .num 1), ("custom_link", .num 5)]])])
     [.obj [("id", .num 1), ("custom_link", .num 5)]]
     (.obj [("id", .num 1), ("custom_link", .num 5)]) rfl (by decide) (by decide) (by decide)⟩

/-! ## C3: the salary of a raw job without salary fields -/

theorem salary_template_data (lo hi : String) :
    ("₹" ++ lo ++ " - ₹" ++ hi).data = '₹' :: (lo.data ++ " - ₹".data ++ hi.data) := by
  simp [String.data_append]

/-- C3: the code at the raw job that has no `company_name`, no `primary_details`, no
`salary_min`, no `salary_max` and no `whatsapp_no`: the company and the phone take
their defaults, and the salary is the interpolated string, not "Not specified".  And
for no raw job without a truthy `primary_details.Salary` is the salary "Not specified":
the last alternative of the salary expression is never taken. -/
theorem normalizeJob_salary_without_bounds :
    (normalizeJob (.obj [("id", .num 7), ("title", .str "Cook")])).map
        (fun j => (j.company, j.salary, j.phone)) =
      .ok (.str "Company Not Listed", .str "₹undefined - ₹undefined",
           .str "Contact Not Available") ∧
    (∀ job : JSVal, truthy (optMember (optMember job "primary_details") "Salary") = false →
      salaryOf job ≠ .ok (.str "Not specified")) := by
  refine ⟨by decide, ?_⟩
  intro job hs
  unfold salaryOf
  simp only [hs]
  cases toStr (optMember job "salary_min") with
  | error e => simp
  | ok lo =>
    cases toStr (optMember job "salary_max") with
    | error e => simp
    | ok hi =>
      have hd := salary_template_data lo hi
      have ht : truthy (.str ("₹" ++ lo ++ " - ₹" ++ hi)) = true := by
        simp only [truthy, bne_iff_ne, ne_eq]
        intro h
        rw [h] at hd
        simp at hd
      simp only [jsOr, ht, if_true]
      intro h
      have h2 : "₹" ++ lo ++ " - ₹" ++ hi = "Not specified" := by
        simpa using h
      rw [h2] at hd
      have hc : ("Not specified".data.head?) = some '₹' := by rw [hd]; rfl
      revert hc
      decide

/-- C3 at the failing input: the salary of the raw job with only an `id` and a `title`
is not "Not specified". -/
theorem normalizeJob_salary_without_bounds_witness :
    salaryOf (.obj [("id", .num 7), ("title", .str "Cook")]) ≠ .ok (.str "Not specified") :=
  normalizeJob_salary_without_bounds.2 (.obj [("id", .num 7), ("title", .str "Cook")])
    (by decide)

/-! ## C4: the phone -/

theorem replaceFirstChars_absent (pat rep : List Char) (hpat : pat ≠ []) :
    ∀ l : List Char, ¬ pat <:+: l → replaceFirstChars pat rep l = l
  | [], _ => by simp [replaceFirstChars, hpat]
  | c :: cs, h => by
      have h1 : pat.isPrefixOf (c :: cs) = false := by
        apply Bool.eq_false_iff.mpr
        intro hp
        exact h (List.isPrefixOf_iff_prefix.mp hp).isInfix
      have h2 : ¬ pat <:+: cs := fun hi => h (hi.trans (List.suffix_cons c cs).isInfix)
      simp [replaceFirstChars, h1, replaceFirstChars_absent pat rep hpat cs h2]

theorem replaceFirstChars_first (pat rep post : List Char) (hpat : pat ≠ []) :
    ∀ pre : List Char, ¬ pat <:+: pre ++ pat.dropLast →
      replaceFirstChars pat rep (pre ++ pat ++ post) = pre ++ rep ++ post
  | [], _ => by
      obtain ⟨c, cs, hc⟩ := List.exists_cons_of_ne_nil hpat
      have hp : pat.isPrefixOf (pat ++ post) = true :=
        List.isPrefixOf_iff_prefix.mpr (List.prefix_append pat post)
      have hd : (pat ++ post).drop pat.length = post := List.drop_left pat post
      rw [List.nil_append, List.nil_append]
      rw [hc] at hp hd ⊢
      rw [List.cons_append] at hp hd ⊢
      simp only [replaceFirstChars, hp, if_true, hd]
  | c :: pre, h => by
      have h1 : pat.isPrefixOf (c :: pre ++ pat ++ post) = false := by
        apply Bool.eq_false_iff.mpr
        intro hp
        have hp1 := List.isPrefixOf_iff_prefix.mp hp
        have hA : (c :: pre ++ pat.dropLast) <+: (c :: pre ++ pat ++ post) := by
          refine ⟨[pat.getLast hpat] ++ post, ?_⟩
          conv_rhs => rw [← List.dropLast_append_getLast hpat]
          simp [List.append_assoc]
        have hlen : pat.length ≤ (c :: pre ++ pat.dropLast).length := by
          simp [List.length_dropLast]
          have : 0 < pat.length := List.length_pos.mpr hpat
          omega
        exact h (List.prefix_of_prefix_length_le hp1 hA hlen).isInfix
      have h2 : ¬ pat <:+: pre ++ pat.dropLast :=
        fun hi => h (hi.trans (List.suffix_cons c _).isInfix)
      have ih := replaceFirstChars_first pat rep post hpat pre h2
      simp only [List.cons_append] at h1 ⊢
      simp only [replaceFirstChars, h1]
      simp only [List.append_assoc] at ih ⊢
      simp [ih]

/-- C4, as stated, fails: for the raw job whose `custom_link` is "hotel:5", which does
not start with `tel:`, the claim gives the phone "hotel:5" and the code gives "ho5". -/
theorem phone_removes_inner_tel :
    phoneAsClaimed (.obj [("id", .num 1), ("custom_link", .str "hotel:5")]) = .str "hotel:5" ∧
    (normalizeJob (.obj [("id", .num 1), ("custom_link", .str "hotel:5")])).map
      (fun j => j.phone) = .ok (.str "ho5") := by
  decide

/-- C4, amended: the phone of the normalised job is the value of the phone expression,
which is `whatsapp_no` when that is truthy; otherwise, when `custom_link` is a string,
it is `custom_link` with the first occurrence of `tel:` removed, wherever it stands
(hence with a leading `tel:` removed, and unchanged when `tel:` does not occur),
provided that result is non-empty; otherwise, when `custom_link` is missing, `null`
or the result is empty, it is "Contact Not Available". -/
theorem phone_resolution (job : JSVal) :
    (∀ j, normalizeJob job = .ok j → phoneOf job = .ok j.phone) ∧
    (truthy (optMember job "whatsapp_no") = true →
      phoneOf job = .ok (optMember job "whatsapp_no")) ∧
    (truthy (optMember job "whatsapp_no") = false →
      ∀ s, optMember job "custom_link" = .str s →
        phoneOf job = .ok (if jsReplace s "tel:" "" = "" then .str "Contact Not Available"
                           else .str (jsReplace s "tel:" ""))) ∧
    (truthy (optMember job "whatsapp_no") = false →
      isDefined (optMember job "custom_link") = false →
        phoneOf job = .ok (.str "Contact Not Available")) ∧
    (∀ before after : String, ¬ "tel:".data <:+: before.data ++ "tel".data →
      jsReplace (before ++ "tel:" ++ after) "tel:" "" = before ++ after) ∧
    (∀ s : String, ¬ "tel:".data <:+: s.data → jsReplace s "tel:" "" = s) := by
  refine ⟨?_, ?_, ?_, ?_, ?_, ?_⟩
  · intro j h
    exact (normalizeJob_ok_elim h).2.2.1
  · intro hw
    simp [phoneOf, hw]
  · intro hw s hs
    have ht : truthy (.str (jsReplace s "tel:" "")) = !(jsReplace s "tel:" "" == "") := rfl
    unfold phoneOf
    simp only [hw, hs, optReplace, jsOr, ht]
    by_cases he : jsReplace s "tel:" "" = "" <;> simp [he]
  · intro hw hc
    simp only [phoneOf, hw]
    cases hcl : optMember job "custom_link" <;> rw [hcl] at hc <;>
      first | rfl | simp [isDefined] at hc
  · intro before after h
    have hpat : "tel:".data ≠ [] := by decide
    have hdl : "tel:".data.dropLast = "tel".data := by decide
    rw [← hdl] at h
    have := replaceFirstChars_first "tel:".data "".data after.data hpat before.data h
    unfold jsReplace
    simp only [String.data_append]
    rw [this]
    apply String.ext
    simp
  · intro s h
    have hpat : "tel:".data ≠ [] := by decide
    unfold jsReplace
    rw [replaceFirstChars_absent "tel:".data "".data hpat s.data h]

/-- The amended C4 at concrete raw jobs: a `whatsapp_no`, a `custom_link` with a leading
`tel:`, a `custom_link` without `tel:`, and neither. -/
theorem phone_resolution_witness :
    phoneOf (.obj [("whatsapp_no", .str "919")]) = .ok (.str "919") ∧
    phoneOf (.obj [("custom_link", .str "tel:0123")]) = .ok (.str "0123") ∧
    jsReplace ("" ++ "tel:" ++ "0123") "tel:" "" = "" ++ "0123" ∧
    jsReplace "0123" "tel:" "" = "0123" ∧
    phoneOf (.obj [("id", .num 1)]) = .ok (.str "Contact Not Available") :=
  ⟨(phone_resolution (.obj [("whatsapp_no", .str "919")])).2.1 (by decide),
   (phone_resolution (.obj [("custom_link", .str "tel:0123")])).2.2.1 (by decide) "tel:0123"
     (by decide),
   (phone_resolution .null).2.2.2.2.1 "" "0123" (by decide),
   (phone_resolution .null).2.2.2.2.2 "0123" (by decide),
   (phone_resolution (.obj [("id", .num 1)])).2.2.2.1 (by decide) (by decide)⟩

/-! ## C5: the error of a failed fetch -/

/-- C5, as stated, fails: a transport failure on page 1 and a status 500 on page 2 make
`fetchJobs` fail with one and the same error, which tells neither the pages nor the
causes apart. -/
theorem fetchJobs_errors_indistinguishable :
    fetchJobs (failWith (.requestError "Network Error" none)) 1 =
      fetchJobs (failWith (.requestError "Request failed with status code 500" (some 500))) 2 ∧
    (1 : Nat) ≠ 2 ∧
    Thrown.requestError "Network Error" none ≠
      Thrown.requestError "Request failed with status code 500" (some 500) := by
  decide

/-- C5, amended: for every page number, when the request made by `fetchJobs` fails or
returns a non-success status, whatever the cause, `fetchJobs` fails with the value of
`new Error("Failed to fetch jobs")`, which carries neither the page nor the cause. -/
theorem fetchJobs_failure_is_generic (get : String → Except Thrown Response) (page : Nat)
    (cause : Thrown)
    (h : get (BASE_URL ++ "/common/jobs?page=" ++ toString page) = .error cause) :
    fetchJobs get page = .error (.error "Failed to fetch jobs") := by
  apply fetchJobs_of_try_error get page cause
  unfold fetchJobsTry
  rw [h]

/-- The amended C5 for a status 503 on page 3. -/
theorem fetchJobs_failure_is_generic_witness :
    fetchJobs (failWith (.requestError "Request failed with status code 503" (some 503))) 3 =
      .error (.error "Failed to fetch jobs") :=
  fetchJobs_failure_is_generic
    (failWith (.requestError "Request failed with status code 503" (some 503))) 3
    (.requestError "Request failed with status code 503" (some 503)) rfl

/-! ## Lemmas on the job list coordinator -/

theorem processJobData_jobs (gen : Nat → String) :
    ∀ (data : List Job) (k : Nat) (ids : JSSet String),
      (processJobData gen k ids data).1.map (fun l => l.job) = data
  | [], _, _ => rfl
  | job :: rest, k, ids => by
      simp [processJobData, processJobData_jobs gen rest]

theorem filter_map_job (p : Job → Bool) :
    ∀ l : List ListedJob, (l.filter (fun x => p x.job)).map (fun x => x.job) =
      (l.map (fun x => x.job)).filter p
  | [] => rfl
  | x :: xs => by
      by_cases h : p x.job = true
      · simp [List.filter_cons, h, filter_map_job p xs]
      · simp [List.filter_cons, h, filter_map_job p xs]

theorem loadJobs_run (get : String → Except Thrown Response) (gen : Nat → String)
    (s : JobsScreenState) (p : Nat) (r : Bool) (hl : s.loading = false)
    (hm : s.hasMore = true ∨ r = true) :
    loadJobs get gen s p r =
      loadJobsResume gen
        { s with loading := true, error := none, inFlight := s.inFlight ++ [⟨p, r⟩] } ⟨p, r⟩
        (fetchJobs get p) := by
  have hg : (s.loading || (!s.hasMore && !r)) = false := by
    rcases hm with hm | hm <;> simp [hl, hm]
  simp [loadJobs, loadJobsCall, hg]

theorem countP_filter_absent (prev page : List ListedJob) (x : JSVal)
    (hx : ∃ e ∈ prev, strictEq e.job.id x = true) :
    (page.filter (fun newJob =>
        !prev.any (fun existingJob => strictEq existingJob.job.id newJob.job.id))).countP
      (fun e => strictEq e.job.id x) = 0 := by
  obtain ⟨e, he, hex⟩ := hx
  rw [List.countP_eq_zero]
  intro n hn
  rw [List.mem_filter] at hn
  intro hnx
  have h1 : e.job.id = x := (strictEq_iff _ _).mp hex
  have h2 : n.job.id = x := (strictEq_iff _ _).mp hnx
  have h3 : strictEq e.job.id n.job.id = true := (strictEq_iff _ _).mpr (h1.trans h2.symm)
  have h4 : prev.any (fun existingJob => strictEq existingJob.job.id n.job.id) = true :=
    List.any_eq_true.mpr ⟨e, he, h3⟩
  simp [h4] at hn

/-! ## C6: a load that is not a refresh appends the new jobs of the page -/

/-- C6: for every accumulated list and every non-empty fetched page, a non-refresh
`loadJobs` leaves the accumulated jobs followed, in page order, by the jobs of the page
whose `id` no accumulated job has; so an id that occurs once in the accumulated list
occurs once after the load, also when the page holds it. -/
theorem loadJobs_appends_unseen (get : String → Except Thrown Response) (gen : Nat → String)
    (s : JobsScreenState) (p : Nat) (data : List Job)
    (hl : s.loading = false) (hm : s.hasMore = true)
    (hf : fetchJobs get p = .ok data) (hne : data ≠ []) :
    (loadJobs get gen s p false).jobs.map (fun l => l.job) =
      s.jobs.map (fun l => l.job) ++
        data.filter (fun newJob =>
          !s.jobs.any (fun existingJob => strictEq existingJob.job.id newJob.id)) ∧
    (loadJobs get gen s p false).jobs.take s.jobs.length = s.jobs ∧
    ∀ x : JSVal, s.jobs.countP (fun e => strictEq e.job.id x) = 1 →
      (loadJobs get gen s p false).jobs.countP (fun e => strictEq e.job.id x) = 1 := by
  have hlen : data.length > 0 := List.length_pos.mpr hne
  have hjobs : (loadJobs get gen s p false).jobs =
      appendNewJobs s.jobs (processJobData gen 0 s.processedIds data).1 := by
    rw [loadJobs_run get gen s p false hl (Or.inl hm), hf]
    simp [loadJobsResume, hlen]
  rw [hjobs]
  refine ⟨?_, ?_, ?_⟩
  · unfold appendNewJobs
    rw [List.map_append]
    rw [filter_map_job (fun newJob =>
      !s.jobs.any (fun existingJob => strictEq existingJob.job.id newJob.id))]
    rw [processJobData_jobs]
  · unfold appendNewJobs
    simp
  · intro x hx
    unfold appendNewJobs
    rw [List.countP_append, hx]
    have hex : ∃ e ∈ s.jobs, strictEq e.job.id x = true := by
      have hpos : 0 < s.jobs.countP (fun e => strictEq e.job.id x) := by omega
      obtain ⟨e, he, hp⟩ := List.countP_pos_iff.mp hpos
      exact ⟨e, he, hp⟩
    rw [countP_filter_absent s.jobs _ x hex]

/-- C6 at the scenario of the specification: a first page of ten jobs, ids 1 to 10, then
a second page with the ids 5 and 11.  After both loads the list holds the ids 1 to 10
and 11, and the id 5 once. -/
theorem loadJobs_appends_unseen_witness :
    (loadJobs (serve [rawJob 5, rawJob 11]) sampleIds
        (loadJobs (serve ((List.range 10).map (fun n => rawJob (n + 1)))) sampleIds
          initialJobsScreen 1 false) 2 false).jobs.map (fun l => l.job) =
      (loadJobs (serve ((List.range 10).map (fun n => rawJob (n + 1)))) sampleIds
          initialJobsScreen 1 false).jobs.map (fun l => l.job) ++
        [bareJob 5, bareJob 11].filter (fun newJob =>
          !(loadJobs (serve ((List.range 10).map (fun n => rawJob (n + 1)))) sampleIds
              initialJobsScreen 1 false).jobs.any
            (fun existingJob => strictEq existingJob.job.id newJob.id)) ∧
    (loadJobs (serve [rawJob 5, rawJob 11]) sampleIds
        (loadJobs (serve ((List.range 10).map (fun n => rawJob (n + 1)))) sampleIds
          initialJobsScreen 1 false) 2 false).jobs.countP
      (fun e => strictEq e.job.id (.num 5)) = 1 :=
  have h := loadJobs_appends_unseen (serve [rawJob 5, rawJob 11]) sampleIds
    (loadJobs (serve ((List.range 10).map (fun n => rawJob (n + 1)))) sampleIds
      initialJobsScreen 1 false) 2 [bareJob 5, bareJob 11]
    (by decide) (by decide) (by decide) (by decide)
  ⟨h.1, h.2.2 (.num 5) (by decide)⟩

/-! ## C7: the guard of `loadJobs` -/

theorem firstPageLoaded_reachable : JobsReachable (jobsRun initialScreen firstPageLoaded) :=
  JobsReachable.step _ .rerender
    (JobsReachable.step _ (.settle ⟨1, false⟩ (.ok tenJobs) sampleIds)
      (JobsReachable.step _ .rerender
        (JobsReachable.step _ (.call 1 false) JobsReachable.init trivial) trivial)
      (by show (⟨1, false⟩ : Request) ∈ _; decide))
    trivial

/-- C7: the code at the failing input.  From the render reached after page 1 returned
ten jobs (`loading` false, `hasMore` true, `page` 2), `onEndReached` fires twice before
the next render.  After the first call `loading` is true and page 2 is in flight; the
second call still reads the `loading` that the render captured, passes the guard and
puts page 2 in flight a second time; a refresh request at that point starts a second
fetch as well.  What the guard does ensure: a call through a render that read `loading`
true or `hasMore` false issues no fetch and changes nothing, and a refresh through a
render that read `loading` true starts no fetch. -/
theorem loadJobs_stale_guard_two_fetches :
    JobsReachable (jobsRun initialScreen (firstPageLoaded ++ [.endReached, .endReached])) ∧
    (jobsRun initialScreen (firstPageLoaded ++ [.endReached])).state.loading = true ∧
    (jobsRun initialScreen (firstPageLoaded ++ [.endReached])).state.inFlight =
      [⟨2, false⟩] ∧
    (jobsRun initialScreen (firstPageLoaded ++ [.endReached, .endReached])).state.inFlight =
      [⟨2, false⟩, ⟨2, false⟩] ∧
    (jobsRun initialScreen (firstPageLoaded ++ [.endReached, .refresh])).state.inFlight =
      [⟨2, false⟩, ⟨1, true⟩] ∧
    (∀ (render s : JobsScreenState) (p : Nat),
      (render.loading = true ∨ render.hasMore = false) →
        loadJobsCallFrom render s p false = s) ∧
    (∀ render s : JobsScreenState, render.loading = true →
      (handleRefreshCallFrom render s).inFlight = s.inFlight) := by
  refine ⟨?_, by decide, by decide, by decide, by decide, ?_, ?_⟩
  · exact JobsReachable.step _ .endReached
      (JobsReachable.step _ .endReached firstPageLoaded_reachable trivial) trivial
  · intro render s p h
    rcases h with h | h <;> simp [loadJobsCallFrom, h]
  · intro render s h
    simp [handleRefreshCallFrom, loadJobsCallFrom, h]

/-- C7 at concrete screens: once the component has rendered again after the first
`onEndReached`, a further `onEndReached` and a refresh request are stopped by the
guard, and one fetch stays in flight. -/
theorem loadJobs_stale_guard_two_fetches_witness :
    loadJobsCallFrom
        (jobsRun initialScreen (firstPageLoaded ++ [.endReached, .rerender])).render
        (jobsRun initialScreen (firstPageLoaded ++ [.endReached, .rerender])).state 2 false =
      (jobsRun initialScreen (firstPageLoaded ++ [.endReached, .rerender])).state ∧
    (handleRefreshCallFrom
        (jobsRun initialScreen (firstPageLoaded ++ [.endReached, .rerender])).render
        (jobsRun initialScreen (firstPageLoaded ++ [.endReached, .rerender])).state).inFlight =
      (jobsRun initialScreen (firstPageLoaded ++ [.endReached, .rerender])).state.inFlight :=
  ⟨loadJobs_stale_guard_two_fetches.2.2.2.2.2.1 _ _ 2 (Or.inl (by decide)),
   loadJobs_stale_guard_two_fetches.2.2.2.2.2.2 _ _ (by decide)⟩

/-! ## C8: the page cursor and `hasMore` after a successful fetch -/

/-- C8: for every page number `n` and every successful fetch of page `n` returning `k`
jobs, in a refresh or not: if `k ≥ 1` the page cursor becomes `n + 1` and `hasMore`
becomes `k ≥ 10` (false for a page of fewer than 10 jobs); if `k = 0`, `hasMore` becomes
false and the cursor and the accumulated list are unchanged. -/
theorem loadJobs_cursor_hasMore (get : String → Except Thrown Response) (gen : Nat → String)
    (s : JobsScreenState) (n : Nat) (r : Bool) (data : List Job)
    (hl : s.loading = false) (hm : s.hasMore = true ∨ r = true)
    (hf : fetchJobs get n = .ok data) :
    (data.length ≥ 1 →
      (loadJobs get gen s n r).page = n + 1 ∧
      (loadJobs get gen s n r).hasMore = decide (data.length ≥ 10) ∧
      (data.length < 10 → (loadJobs get gen s n r).hasMore = false)) ∧
    (data.length = 0 →
      (loadJobs get gen s n r).hasMore = false ∧
      (loadJobs get gen s n r).page = s.page ∧
      (loadJobs get gen s n r).jobs = s.jobs) := by
  rw [loadJobs_run get gen s n r hl hm, hf]
  constructor
  · intro hk
    have hk2 : data.length > 0 := hk
    refine ⟨?_, ?_, ?_⟩
    · simp only [loadJobsResume, hk2, if_true]
    · simp only [loadJobsResume, hk2, if_true]
    · intro hlt
      simp only [loadJobsResume, hk2, if_true]
      simp
      omega
  · intro hk
    simp [loadJobsResume, hk]

/-- C8 at the scenarios of the specification: page 1 returning 2 jobs, from the first
render, and an empty page 3. -/
theorem loadJobs_cursor_hasMore_witness :
    ((loadJobs (serve [rawJob 1, rawJob 2]) sampleIds initialJobsScreen 1 false).page = 1 + 1 ∧
     (loadJobs (serve [rawJob 1, rawJob 2]) sampleIds initialJobsScreen 1 false).hasMore =
       decide ([bareJob 1, bareJob 2].length ≥ 10) ∧
     (loadJobs (serve [rawJob 1, rawJob 2]) sampleIds initialJobsScreen 1 false).hasMore = false) ∧
    ((loadJobs (serve []) sampleIds { initialJobsScreen with page := 3 } 3 false).hasMore = false ∧
     (loadJobs (serve []) sampleIds { initialJobsScreen with page := 3 } 3 false).page = 3 ∧
     (loadJobs (serve []) sampleIds { initialJobsScreen with page := 3 } 3 false).jobs = []) :=
  have h1 := (loadJobs_cursor_hasMore (serve [rawJob 1, rawJob 2]) sampleIds initialJobsScreen 1
    false [bareJob 1, bareJob 2] rfl (Or.inl rfl) (by decide)).1 (by decide)
  have h2 := (loadJobs_cursor_hasMore (serve []) sampleIds { initialJobsScreen with page := 3 } 3
    false [] rfl (Or.inl rfl) (by decide)).2 rfl
  ⟨⟨h1.1, h1.2.1, h1.2.2 (by decide)⟩, h2⟩

/-! ## C9: a refresh -/

/-- C9, as stated, fails on an empty page: after page 1 loaded one job, a refresh whose
fetch succeeds with an empty page leaves that job in the list, and its unique id in
`processedIds`; the list is not the (empty) fetched result. -/
theorem handleRefresh_empty_page_keeps_list :
    fetchJobs (serve []) 1 = .ok [] ∧
    (handleRefresh (serve []) sampleIds
      (loadJobs (serve [rawJob 1]) sampleIds initialJobsScreen 1 false)).jobs.map
        (fun l => l.job) = [bareJob 1] ∧
    (handleRefresh (serve []) sampleIds
      (loadJobs (serve [rawJob 1]) sampleIds initialJobsScreen 1 false)).processedIds.items =
        ["uid0"] := by
  decide

/-- C9, amended: for every prior list and every successful page-1 fetch of a refresh
(`handleRefresh`, that is `loadJobs(1, true)`, started while no load is in flight): when
the fetched page is not empty, the current list is exactly the fetched results (each
with its unique id), replacing the prior list, `processedIds` is empty and the cursor is
2; when the fetched page is empty, the prior list and `processedIds` are unchanged and
`hasMore` is false. -/
theorem handleRefresh_replaces_list (get : String → Except Thrown Response)
    (gen : Nat → String) (s : JobsScreenState) (data : List Job)
    (hl : s.loading = false) (hf : fetchJobs get 1 = .ok data) :
    (data ≠ [] →
      (handleRefresh get gen s).jobs.map (fun l => l.job) = data ∧
      (handleRefresh get gen s).processedIds.items = [] ∧
      (handleRefresh get gen s).page = 2) ∧
    (data = [] →
      (handleRefresh get gen s).jobs = s.jobs ∧
      (handleRefresh get gen s).processedIds = s.processedIds ∧
      (handleRefresh get gen s).hasMore = false) := by
  unfold handleRefresh
  rw [loadJobs_run get gen _ 1 true (by exact hl) (Or.inr rfl), hf]
  constructor
  · intro hne
    have hlen : data.length > 0 := List.length_pos.mpr hne
    refine ⟨?_, ?_, ?_⟩
    · simp only [loadJobsResume, hlen, if_true]
      exact processJobData_jobs gen data 0 s.processedIds
    · simp only [loadJobsResume, hlen, if_true]
      rfl
    · simp only [loadJobsResume, hlen, if_true]
  · intro he
    subst he
    simp [loadJobsResume]

/-- The amended C9 at concrete inputs: after page 1 loaded one job, a refresh that
fetches two jobs, and a refresh that fetches none. -/
theorem handleRefresh_replaces_list_witness :
    ((handleRefresh (serve [rawJob 8, rawJob 9]) sampleIds
        (loadJobs (serve [rawJob 1]) sampleIds initialJobsScreen 1 false)).jobs.map
          (fun l => l.job) = [bareJob 8, bareJob 9] ∧
     (handleRefresh (serve [rawJob 8, rawJob 9]) sampleIds
        (loadJobs (serve [rawJob 1]) sampleIds initialJobsScreen 1 false)).processedIds.items
          = [] ∧
     (handleRefresh (serve [rawJob 8, rawJob 9]) sampleIds
        (loadJobs (serve [rawJob 1]) sampleIds initialJobsScreen 1 false)).page = 2) ∧
    ((handleRefresh (serve []) sampleIds
        (loadJobs (serve [rawJob 1]) sampleIds initialJobsScreen 1 false)).jobs =
          (loadJobs (serve [rawJob 1]) sampleIds initialJobsScreen 1 false).jobs ∧
     (handleRefresh (serve []) sampleIds
        (loadJobs (serve [rawJob 1]) sampleIds initialJobsScreen 1 false)).processedIds =
          (loadJobs (serve [rawJob 1]) sampleIds initialJobsScreen 1 false).processedIds ∧
     (handleRefresh (serve []) sampleIds
        (loadJobs (serve [rawJob 1]) sampleIds initialJobsScreen 1 false)).hasMore = false) :=
  ⟨(handleRefresh_replaces_list (serve [rawJob 8, rawJob 9]) sampleIds
      (loadJobs (serve [rawJob 1]) sampleIds initialJobsScreen 1 false)
      [bareJob 8, bareJob 9] (by decide) (by decide)).1 (by decide),
   (handleRefresh_replaces_list (serve []) sampleIds
      (loadJobs (serve [rawJob 1]) sampleIds initialJobsScreen 1 false)
      [] (by decide) (by decide)).2 rfl⟩

/-! ## Lemmas on `Set` -/

theorem JSSet.eq_of_items {α : Type} {a b : JSSet α} (h : a.items = b.items) : a = b := by
  cases a
  cases b
  cases h
  rfl

theorem JSSet.add_items_of_not_mem {α : Type} [DecidableEq α] (s : JSSet α) (x : α)
    (h : x ∉ s.items) : (s.add x).items = s.items ++ [x] := by
  simp [JSSet.add, h]

theorem JSSet.foldl_add_items {α : Type} [DecidableEq α] :
    ∀ (xs : List α) (acc : JSSet α), (acc.items ++ xs).Nodup →
      (xs.foldl JSSet.add acc).items = acc.items ++ xs
  | [], acc, _ => by simp
  | x :: xs, acc, h => by
      have hx : x ∉ acc.items := by
        intro hm
        have := List.nodup_append.mp h
        exact this.2.2 hm (List.mem_cons_self x xs)
      have hadd := JSSet.add_items_of_not_mem acc x hx
      have h2 : ((acc.add x).items ++ xs).Nodup := by
        rw [hadd]
        simpa [List.append_assoc] using h
      rw [List.foldl_cons, JSSet.foldl_add_items xs (acc.add x) h2, hadd]
      simp

theorem JSSet.ofList_items {α : Type} [DecidableEq α] (xs : List α) (h : xs.Nodup) :
    (JSSet.ofList xs).items = xs := by
  unfold JSSet.ofList
  rw [JSSet.foldl_add_items xs JSSet.empty (by simpa [JSSet.empty] using h)]
  simp [JSSet.empty]

/-! ## C10: toggling a bookmark twice -/

/-- C10: for every state of the bookmark coordinator in which no bookmarked job has the
id of `job` and `bookmarkedIds` does not hold it, `toggleJobBookmark(job)` with the
store reporting true and then `toggleJobBookmark(job)` with the store reporting false
return true and then false and leave `bookmarkedJobs` and `bookmarkedIds` as they were
before the first call; after the first call `job.id` is in `bookmarkedIds` and `job` is
the last element of `bookmarkedJobs`. -/
theorem toggleJobBookmark_twice (s : BookmarkState) (job : Job)
    (hjobs : ∀ j ∈ s.bookmarkedJobs, strictEq j.id job.id = false)
    (hids : s.bookmarkedIds.has job.id = false) :
    (toggleJobBookmark s job (.ok true)).2 = .ok true ∧
    (toggleJobBookmark (toggleJobBookmark s job (.ok true)).1 job (.ok false)).2 = .ok false ∧
    (toggleJobBookmark (toggleJobBookmark s job (.ok true)).1 job (.ok false)).1.bookmarkedJobs =
      s.bookmarkedJobs ∧
    (toggleJobBookmark (toggleJobBookmark s job (.ok true)).1 job (.ok false)).1.bookmarkedIds =
      s.bookmarkedIds ∧
    (toggleJobBookmark s job (.ok true)).1.bookmarkedIds.has job.id = true ∧
    (toggleJobBookmark s job (.ok true)).1.bookmarkedJobs.getLast? = some job := by
  have hnot : job.id ∉ s.bookmarkedIds.items := by
    simpa [JSSet.has] using hids
  have hnodup : (s.bookmarkedIds.items ++ [job.id]).Nodup :=
    List.Nodup.append s.bookmarkedIds.nodup (List.nodup_singleton _)
      (by simpa [List.disjoint_singleton] using hnot)
  have h1 : (JSSet.ofList (s.bookmarkedIds.items ++ [job.id])).items =
      s.bookmarkedIds.items ++ [job.id] := JSSet.ofList_items _ hnodup
  have hself : strictEq job.id job.id = true := (strictEq_iff _ _).mpr rfl
  refine ⟨rfl, rfl, ?_, ?_, ?_, ?_⟩
  · simp only [toggleJobBookmark, if_true, Bool.false_eq_true, if_false]
    rw [List.filter_append]
    have hkeep : s.bookmarkedJobs.filter (fun j => !strictEq j.id job.id) = s.bookmarkedJobs := by
      rw [List.filter_eq_self]
      intro j hj
      simp [hjobs j hj]
    rw [hkeep]
    simp [hself]
  · apply JSSet.eq_of_items
    simp only [toggleJobBookmark, if_true, Bool.false_eq_true, if_false, JSSet.delete]
    rw [JSSet.ofList_items _ (by rw [h1]; exact hnodup), h1]
    rw [List.erase_append_right _ hnot]
    simp
  · simp only [toggleJobBookmark, if_true, JSSet.has]
    rw [h1]
    simp
  · simp [toggleJobBookmark]

/-- C10 at the scenario of the specification: on the empty coordinator, toggling the
job with id 42 twice. -/
theorem toggleJobBookmark_twice_witness :
    (toggleJobBookmark initialBookmarks (bareJob 42) (.ok true)).2 = .ok true ∧
    (toggleJobBookmark (toggleJobBookmark initialBookmarks (bareJob 42) (.ok true)).1
      (bareJob 42) (.ok false)).2 = .ok false ∧
    (toggleJobBookmark (toggleJobBookmark initialBookmarks (bareJob 42) (.ok true)).1
      (bareJob 42) (.ok false)).1.bookmarkedJobs = initialBookmarks.bookmarkedJobs ∧
    (toggleJobBookmark (toggleJobBookmark initialBookmarks (bareJob 42) (.ok true)).1
      (bareJob 42) (.ok false)).1.bookmarkedIds = initialBookmarks.bookmarkedIds ∧
    (toggleJobBookmark initialBookmarks (bareJob 42) (.ok true)).1.bookmarkedIds.has
      (bareJob 42).id = true ∧
    (toggleJobBookmark initialBookmarks (bareJob 42) (.ok true)).1.bookmarkedJobs.getLast? =
      some (bareJob 42) :=
  toggleJobBookmark_twice initialBookmarks (bareJob 42) (by decide) (by decide)

/-! ## C11: the ids and the jobs of the bookmark coordinator agree -/

theorem JSSet.has_add {α : Type} [DecidableEq α] (s : JSSet α) (x y : α) :
    (s.add x).has y = (s.has y || decide (y = x)) := by
  unfold JSSet.add JSSet.has
  by_cases h : x ∈ s.items
  · simp only [h, dite_true]
    by_cases hy : y = x
    · subst hy; simp [h]
    · simp [hy]
  · simp [h]

theorem JSSet.has_foldl_add {α : Type} [DecidableEq α] (y : α) :
    ∀ (xs : List α) (acc : JSSet α),
      (xs.foldl JSSet.add acc).has y = (acc.has y || decide (y ∈ xs))
  | [], acc => by simp
  | x :: xs, acc => by
      rw [List.foldl_cons, JSSet.has_foldl_add y xs (acc.add x), JSSet.has_add]
      simp [Bool.or_assoc]

theorem JSSet.has_ofList {α : Type} [DecidableEq α] (xs : List α) (y : α) :
    (JSSet.ofList xs).has y = decide (y ∈ xs) := by
  unfold JSSet.ofList
  rw [JSSet.has_foldl_add]
  simp [JSSet.has, JSSet.empty]

theorem JSSet.has_delete {α : Type} [DecidableEq α] (s : JSSet α) (x y : α) :
    (s.delete x).has y = (s.has y && !decide (y = x)) := by
  unfold JSSet.delete JSSet.has
  by_cases hy : y = x
  · subst hy
    simp [List.Nodup.mem_erase_iff s.nodup]
  · simp [List.Nodup.mem_erase_iff s.nodup, hy]

theorem any_strictEq_id (jobs : List Job) (x : JSVal) :
    jobs.any (fun j => strictEq j.id x) = decide (x ∈ jobs.map (fun j => j.id)) := by
  induction jobs with
  | nil => simp
  | cons j js ih =>
    rw [List.any_cons, ih]
    by_cases h : j.id = x
    · subst h
      simp [(strictEq_iff j.id j.id).mpr rfl]
    · have hf : strictEq j.id x = false := by
        apply Bool.eq_false_iff.mpr
        intro ht
        exact h ((strictEq_iff _ _).mp ht)
      have h2 : ¬ x = j.id := fun e => h e.symm
      simp [hf, h2]

theorem idsMatchJobs_loadResume (s : BookmarkState) (store : Except Thrown (List Job))
    (h : idsMatchJobs s) : idsMatchJobs (loadBookmarkedJobsResume s store).1 := by
  cases store with
  | error e => exact h
  | ok jobs =>
    intro x
    simp only [loadBookmarkedJobsResume]
    rw [JSSet.has_ofList, any_strictEq_id]

theorem idsMatchJobs_toggle (s : BookmarkState) (job : Job) (store : Except Thrown Bool)
    (h : idsMatchJobs s) : idsMatchJobs (toggleJobBookmark s job store).1 := by
  cases store with
  | error e => exact h
  | ok isBookmarked =>
    intro x
    have hx := h x
    rw [any_strictEq_id] at hx
    have hitems : ∀ y, decide (y ∈ s.bookmarkedIds.items) = s.bookmarkedIds.has y :=
      fun y => rfl
    cases isBookmarked with
    | true =>
      simp only [toggleJobBookmark, if_true]
      rw [JSSet.has_ofList, any_strictEq_id]
      simp only [List.mem_append, List.map_append, List.map_cons, List.map_nil,
        Bool.decide_or, hitems, hx]
    | false =>
      simp only [toggleJobBookmark, Bool.false_eq_true, if_false]
      rw [JSSet.has_delete, JSSet.has_ofList, hitems, hx, any_strictEq_id]
      by_cases hj : x = job.id
      · subst hj
        have hnot : ¬ job.id ∈ (s.bookmarkedJobs.filter (fun j => !strictEq j.id job.id)).map
            (fun j => j.id) := by
          intro hm
          rw [List.mem_map] at hm
          obtain ⟨j, hjm, hid⟩ := hm
          rw [List.mem_filter] at hjm
          have hkeep := hjm.2
          rw [(strictEq_iff _ _).mpr hid] at hkeep
          simp at hkeep
        simp [hnot]
      · have hiff : x ∈ (s.bookmarkedJobs.filter (fun j => !strictEq j.id job.id)).map
            (fun j => j.id) ↔ x ∈ s.bookmarkedJobs.map (fun j => j.id) := by
          simp only [List.mem_map, List.mem_filter]
          constructor
          · rintro ⟨j, ⟨hm, _⟩, hid⟩
            exact ⟨j, hm, hid⟩
          · rintro ⟨j, hm, hid⟩
            refine ⟨j, ⟨hm, ?_⟩, hid⟩
            have hne : ¬ j.id = job.id := fun e => hj (hid.symm.trans e)
            have hf : strictEq j.id job.id = false := by
              apply Bool.eq_false_iff.mpr
              intro ht
              exact hne ((strictEq_iff _ _).mp ht)
            simp [hf]
        simp [hj, hiff]

/-- C11: in every state reachable from the first render by calls of
`loadBookmarkedJobs`, with any store result, and of `toggleJobBookmark`, with any job and
any store-reported outcome or rejection, `bookmarkedIds` holds exactly the ids of the
jobs in `bookmarkedJobs`; and a `loadBookmarkedJobs` whose store read fails throws the
failure on and leaves both structures untouched. -/
theorem bookmarkedIds_match_bookmarkedJobs :
    (∀ s : BookmarkState, BookmarkReachable s → idsMatchJobs s) ∧
    (∀ (s : BookmarkState) (e : Thrown),
      (loadBookmarkedJobs s (.error e)).2 = .error e ∧
      (loadBookmarkedJobs s (.error e)).1.bookmarkedJobs = s.bookmarkedJobs ∧
      (loadBookmarkedJobs s (.error e)).1.bookmarkedIds = s.bookmarkedIds) := by
  constructor
  · intro s hs
    induction hs with
    | init =>
      intro x
      rfl
    | step s e _ ih =>
      cases e with
      | loadCall => exact ih
      | loadSettle store => exact idsMatchJobs_loadResume s store ih
      | toggle job store => exact idsMatchJobs_toggle s job store ih
  · intro s e
    exact ⟨rfl, rfl, rfl⟩

/-- C11 at a concrete run: the store is read (jobs 1 and 2), job 3 is bookmarked, job 1
is removed, and a second read fails.  The ids 2 and 3 are in `bookmarkedIds`, the id 1
is not, as in `bookmarkedJobs`. -/
theorem bookmarkedIds_match_bookmarkedJobs_witness :
    idsMatchJobs
      (bookmarkStep
        (bookmarkStep
          (bookmarkStep
            (bookmarkStep (bookmarkStep initialBookmarks .loadCall)
              (.loadSettle (.ok [bareJob 1, bareJob 2])))
            (.toggle (bareJob 3) (.ok true)))
          (.toggle (bareJob 1) (.ok false)))
        (.loadSettle (.error (.error "storage unreadable")))) :=
  bookmarkedIds_match_bookmarkedJobs.1 _
    (BookmarkReachable.step _ _
      (BookmarkReachable.step _ _
        (BookmarkReachable.step _ _
          (BookmarkReachable.step _ _
            (BookmarkReachable.step _ _ BookmarkReachable.init)))))

end Lokal
